import Mathlib

/-!
Verification of the FGDC → Zenodo metadata crosswalk engine
(`scripts/fgdc_to_zenodo.py`, `scripts/dto.py`, `scripts/enhanced_metrics.py`,
`scripts/validate_zenodo.py`).  Python strings are modelled as Lean `String`
(operated on through their `List Char` data, matching Python's code-point
semantics), numbers as `Nat`/`Int`/`ℚ`, dictionaries with a fixed key set as
structures with `Option` fields (`none` = key absent or value `None`), and
fallible code as `Option`.
-/

namespace PICES

/-- ASCII lower-casing of one character, as Python `str.lower` acts on ASCII. -/
def lcChar (c : Char) : Char :=
  if c.toNat ≥ 65 && c.toNat ≤ 90 then Char.ofNat (c.toNat + 32) else c

/-- Lower-case a string (ASCII), modelling Python `str.lower`. -/
def lowerS (s : String) : String := String.mk (s.data.map lcChar)

/-- Whitespace as stripped by Python `str.strip` (ASCII whitespace). -/
def isWSb (c : Char) : Bool :=
  c == ' ' || c == '\t' || c == '\n' || c == '\r' || c == '\x0b' || c == '\x0c'

/-- Python `str.strip`. -/
def stripS (s : String) : String :=
  String.mk (((s.data.dropWhile isWSb).reverse.dropWhile isWSb).reverse)

/-- `needle` is a prefix of `hay`. -/
def startsWithL : List Char → List Char → Bool
  | [], _ => true
  | _ :: _, [] => false
  | a :: as, b :: bs => a == b && startsWithL as bs

/-- Python `needle in hay` substring test on char lists. -/
def containsL (n : List Char) : List Char → Bool
  | [] => startsWithL n []
  | b :: bs => startsWithL n (b :: bs) || containsL n bs

/-- Python `hay.endswith(needle)`. -/
def endsWithL (n hay : List Char) : Bool := startsWithL n.reverse hay.reverse

/-- Substring test on strings: Python `n in h`. -/
def containsS (h n : String) : Bool := containsL n.data h.data

/-- Numeric value of a list of decimal digit characters (Python `int`). -/
def digitsVal (cs : List Char) : Nat :=
  cs.foldl (fun a c => a * 10 + (c.toNat - 48)) 0

/-- Zero-pad a natural to `w` digits, as Python `%0wd` / `strftime`. -/
def padNum (w : Nat) (n : Nat) : String :=
  let d := toString n
  String.mk (List.replicate (w - d.data.length) '0') ++ d

/-! ### A tiny regex fragment

The transformer's patterns use only literal characters, `.?` (one optional
arbitrary non-newline character) and `\.` (a literal dot).  `rxOf` translates
such a pattern, written exactly as in the source, into a token list, and
`rtokSearch` implements `re.search` for it. -/

inductive RTok
  | lit (c : Char)
  | anyOpt
deriving DecidableEq

/-- Translate a pattern string (only literals, `.?`, `\.`) to tokens. -/
def rxOf : List Char → List RTok
  | [] => []
  | '\\' :: c :: rest => RTok.lit c :: rxOf rest
  | '.' :: '?' :: rest => RTok.anyOpt :: rxOf rest
  | c :: rest => RTok.lit c :: rxOf rest

/-- Pattern from a source-literal regex string. -/
def rx (s : String) : List RTok := rxOf s.data

/-- Match the token list against a prefix of the input. -/
def rtokMatch : List RTok → List Char → Bool
  | [], _ => true
  | RTok.lit _ :: _, [] => false
  | RTok.lit c :: ts, x :: xs => c == x && rtokMatch ts xs
  | RTok.anyOpt :: ts, xs =>
      rtokMatch ts xs ||
      (match xs with
       | [] => false
       | x :: xs2 => !(x == '\n') && rtokMatch ts xs2)

/-- `re.search`: the pattern matches at some position. -/
def rtokSearch (ts : List RTok) : List Char → Bool
  | [] => rtokMatch ts []
  | b :: bs => rtokMatch ts (b :: bs) || rtokSearch ts bs

/-- `re.search(pattern, text)` on strings. -/
def reSearch (pattern : String) (text : String) : Bool :=
  rtokSearch (rx pattern) text.data

/-! ### Date normalizer (`FGDCToZenodoTransformer._normalize_date`)

`dateutil.parser.parse` (an external library, the last-resort branch) is a
parameter `dateutilParse` returning year/month/day or `none` for a parse
error; `datetime.now().year` is the parameter `currentYear`.  Logging calls
are side effects only and are omitted here. -/

/-- `^\d{4}-\d{4}$` -/
def isD4D4 : List Char → Bool
  | [a, b, c, d, '-', e, f, g, h] => [a, b, c, d, e, f, g, h].all Char.isDigit
  | _ => false

/-- `^\d{8}-\d{8}$` -/
def isD8D8 : List Char → Bool
  | [a, b, c, d, e, f, g, h, '-', i, j, k, l, m, n, o, p] =>
      [a, b, c, d, e, f, g, h, i, j, k, l, m, n, o, p].all Char.isDigit
  | _ => false

/-- `^\d{6}-\d{6}$` -/
def isD6D6 : List Char → Bool
  | [a, b, c, d, e, f, '-', g, h, i, j, k, l] =>
      [a, b, c, d, e, f, g, h, i, j, k, l].all Char.isDigit
  | _ => false

/-- `^\d{2}-\d{2}$` -/
def isD2D2 : List Char → Bool
  | [a, b, '-', c, d] => [a, b, c, d].all Char.isDigit
  | _ => false

/-- `^\d{4}\s+\d{4}$` -/
def isD4SpD4 : List Char → Bool
  | a :: b :: c :: d :: rest =>
      [a, b, c, d].all Char.isDigit &&
      (let sp := rest.takeWhile isWSb
       let rest2 := rest.dropWhile isWSb
       decide (sp.length ≥ 1) &&
       (match rest2 with
        | [e, f, g, h] => [e, f, g, h].all Char.isDigit
        | _ => false))
  | _ => false

/-- First (leftmost) match of `\d{4}`: `re.search(r'(\d{4})', s)`. -/
def firstD4 : List Char → Option (List Char)
  | a :: b :: c :: d :: rest =>
      if a.isDigit && b.isDigit && c.isDigit && d.isDigit then some [a, b, c, d]
      else firstD4 (b :: c :: d :: rest)
  | _ => none

/-- First (leftmost) match of `\d{2}`: `re.search(r'(\d{2})', s)`. -/
def firstD2 : List Char → Option (List Char)
  | a :: b :: rest =>
      if a.isDigit && b.isDigit then some [a, b]
      else firstD2 (b :: rest)
  | _ => none

/-- First match of `(\d{4})-Present`. -/
def firstD4Present : List Char → Option (List Char)
  | a :: b :: c :: d :: rest =>
      if a.isDigit && b.isDigit && c.isDigit && d.isDigit &&
         startsWithL "-Present".data rest then some [a, b, c, d]
      else firstD4Present (b :: c :: d :: rest)
  | _ => none

/-- Two-digit year pivot used throughout `_normalize_date`:
`< 50` → 2000s, otherwise 1900s. -/
def pivot2 (n : Nat) : Nat := if n < 50 then n + 2000 else n + 1900

/-- `FGDCToZenodoTransformer._normalize_date`, branch by branch in source
order (the Python `if/elif` chain is rendered as matches on the boolean
branch tests).  Returns the canonical date string or `none`. -/
def normalizeDate (dateutilParse : String → Option (Nat × Nat × Nat))
    (currentYear : Nat) (raw : String) : Option String :=
  let s := stripS raw
  let cs := s.data
  let low := (lowerS s).data
  -- vague / unknown tokens → failure
  match cs.isEmpty || ["varies", "unknown", "not specified", "present"].any
      (fun t => low == t.data) with
  | true => none
  | false =>
  -- unpublished / planned → January 1 of the current year
  match ["planned", "unpublished", "unpublished material"].any
      (fun t => low == t.data) with
  | true => some (toString currentYear ++ "-01-01")
  | false =>
  -- YYYY-YYYY range → first year (via int conversion)
  match isD4D4 cs with
  | true => some (toString (digitsVal (cs.take 4)) ++ "-01-01")
  | false =>
  -- YYYYMMDD-YYYYMMDD range → first date (string slices)
  match isD8D8 cs with
  | true => some (String.mk (cs.take 4) ++ "-" ++ String.mk ((cs.drop 4).take 2) ++ "-"
      ++ String.mk ((cs.drop 6).take 2))
  | false =>
  -- comma-separated years → first 4-digit number found
  match containsL [','] cs && (firstD4 cs).isSome with
  | true =>
    (match firstD4 cs with
     | some y => some (toString (digitsVal y) ++ "-01-01")
     | none => none)
  | false =>
  -- "YYYY-Present" (endswith, then search `(\d{4})-Present`)
  match endsWithL "-Present".data cs && (firstD4Present cs).isSome with
  | true =>
    (match firstD4Present cs with
     | some y => some (toString (digitsVal y) ++ "-01-01")
     | none => none)
  | false =>
  -- YYYYMM-YYYYMM range → first month
  match isD6D6 cs with
  | true => some (String.mk (cs.take 4) ++ "-" ++ String.mk ((cs.drop 4).take 2) ++ "-01")
  | false =>
  -- space-separated years
  match containsL [' '] cs && isD4SpD4 cs with
  | true => some (toString (digitsVal (cs.take 4)) ++ "-01-01")
  | false =>
  -- "thru" ranges: first 2-digit number, pivot-expanded; when no 2-digit
  -- number exists the code only logs and falls through
  match containsS (String.mk low) "thru" && (firstD2 cs).isSome with
  | true =>
    (match firstD2 cs with
     | some y => some (toString (pivot2 (digitsVal y)) ++ "-01-01")
     | none => none)
  | false =>
  -- " - " or " to " ranges → first 4-digit year (kept as the matched string)
  match containsL " - ".data cs || containsL " to ".data cs with
  | true =>
    (match firstD4 cs with
     | some y => some (String.mk y ++ "-01-01")
     | none => none)
  | false =>
  -- two-digit year pair "YY-YY" → pivot-expanded first year
  match isD2D2 cs with
  | true => some (toString (pivot2 (digitsVal (cs.take 2))) ++ "-01-01")
  | false =>
  -- plain 4 / 6 / 8 character tokens
  match cs.length == 4 with
  | true => some (s ++ "-01-01")
  | false =>
  match cs.length == 6 with
  | true => some (String.mk (cs.take 4) ++ "-" ++ String.mk ((cs.drop 4).take 2) ++ "-01")
  | false =>
  match cs.length == 8 with
  | true => some (String.mk (cs.take 4) ++ "-" ++ String.mk ((cs.drop 4).take 2) ++ "-"
      ++ String.mk ((cs.drop 6).take 2))
  | false =>
    -- last resort: dateutil.parser.parse, rendered with strftime
    match dateutilParse s with
    | some (y, m, d) => some (padNum 4 y ++ "-" ++ padNum 2 m ++ "-" ++ padNum 2 d)
    | none => none

example : normalizeDate (fun _ => none) 2025 "1950-1980" = some "1950-01-01" := by decide
example : normalizeDate (fun _ => none) 2025 "19970101-20021231" = some "1997-01-01" := by decide
example : normalizeDate (fun _ => none) 2025 "72-88" = some "1972-01-01" := by decide
example : normalizeDate (fun _ => some (2004, 3, 1)) 2025 "2004-03-01" = some "2004-03-01" := by decide

/-! ### Data model

`FGDCDoc` models the parsed FGDC tree restricted to the elements the
embedded extractors read (each field is the text of the first matching
element, `none` when the element is absent or has no text; repeated
elements are lists).  `ZMeta` models the Zenodo metadata dictionary with
one `Option` field per key (`none` = key absent or value `None`). -/

/-- A diagnostic record as built by `TransformationLogger.log_warning` /
`log_error` (timestamp omitted). -/
structure LogEntry where
  file : String
  field : String
  issue_type : String
  severity : String
  value_found : Option String
  expected : String
  context : String
  suggestion : String
deriving DecidableEq

/-- A creator / contributor dictionary: `name` plus the optional `type` key. -/
structure Creator where
  name : String
  ctype : Option String := none
deriving DecidableEq

/-- A related-identifier dictionary as built by the transformer. -/
structure RelId where
  identifier : String
  relation : String
deriving DecidableEq

/-- A subject dictionary (`term` / `identifier` / `scheme`). -/
structure Subject where
  term : String
  identifier : String
  scheme : String
deriving DecidableEq

/-- One `keywords` section of the FGDC tree. -/
structure KwSection where
  themekt : Option String := none
  themekeys : List (Option String) := []
  placekeys : List (Option String) := []
  stratumkeys : List (Option String) := []
  temporalkeys : List (Option String) := []
deriving DecidableEq

/-- A bounding box whose four bounds parsed as numbers (`float(...)`
succeeded); coordinates are modelled as rationals. -/
structure BBoxQ where
  west : ℚ
  east : ℚ
  north : ℚ
  south : ℚ
deriving DecidableEq

/-- The parsed FGDC source tree, restricted to the elements read by the
embedded extractors.  Elements feeding only the notes aggregator
(temporal coverage, native environment, cloud cover, data-quality,
spatial-reference, entity-attribute and distribution narrative text) are
not modelled: they only append to `notes`/`references`. -/
structure FGDCDoc where
  title : Option String := none
  origins : List (Option String) := []
  pubdate : Option String := none
  metd : Option String := none
  abstract : Option String := none
  purpose : Option String := none
  supplinf : Option String := none
  accconst : Option String := none
  useconst : Option String := none
  keywordSections : List KwSection := []
  bounding : Option BBoxQ := none
  ptcontacName : Option String := none
  distribName : Option String := none
  onlinks : List (Option String) := []
  crossrefs : List (Option String) := []
  edition : Option String := none
  sername : Option String := none
  issue : Option String := none
  pubplace : Option String := none
  publish : Option String := none
  othercit : Option String := none
  lworkcit : Option String := none
  browsed : List (Option String) := []
  eadetcit : Option String := none
  networkr : Option String := none
  secclass : Option String := none
  sechandl : Option String := none
  fees : Option String := none
deriving DecidableEq

/-- The Zenodo metadata dictionary (Candidate Record). -/
structure ZMeta where
  title : Option String := none
  upload_type : Option String := none
  publication_date : Option String := none
  creators : Option (List Creator) := none
  description : Option String := none
  access_right : Option String := none
  license : Option String := none
  keywords : Option (List String) := none
  notes : Option String := none
  related_identifiers : Option (List RelId) := none
  contributors : Option (List Creator) := none
  references : Option (List String) := none
  communities : Option (List String) := none
  access_conditions : Option String := none
  subjects : Option (List Subject) := none
  version : Option String := none
  partof_title : Option String := none
  journal_issue : Option String := none
  imprint_place : Option String := none
  imprint_publisher : Option String := none
  publisher : Option String := none
deriving DecidableEq

/-- `o.text` truthiness: `some s` only when the text exists and is non-empty. -/
def textNE : Option String → Option String
  | some s => if s.data.isEmpty then none else some s
  | none => none

/-- `elem.text.strip() if elem is not None and elem.text else ""`. -/
def stripOrEmpty : Option String → String
  | some s => stripS s
  | none => ""

/-! ### Title (`_extract_title`) -/

/-- `FGDCToZenodoTransformer._extract_title`: strip, truncate at 250
characters to the first 247 plus `"..."` with a warning, or fail with an
error diagnostic. -/
def extractTitle (filePath : String) (titleText : Option String) :
    Option String × List LogEntry :=
  let failLog : LogEntry :=
    ⟨filePath, "idinfo.citation.citeinfo.title", "missing_required_field",
      "error", none, "Non-empty title text", "Add title element to citation section", ""⟩
  match titleText with
  | none => (none, [failLog])
  | some t0 =>
    let t := stripS t0
    if t.data.isEmpty then (none, [failLog])
    else if t.data.length > 250 then
      let truncated := String.mk (t.data.take 247) ++ "..."
      (some truncated,
        [⟨filePath, "idinfo.citation.citeinfo.title", "title_truncated", "warning",
          some ("Title length: " ++ toString t.data.length ++ " characters"),
          "Title under 250 characters",
          "Truncated from " ++ toString t.data.length ++ " to 250 characters: '"
            ++ truncated ++ "'", ""⟩])
    else (some t, [])

/-! ### Creators (`_extract_creators` and helpers) -/

/-- The transformer's organization patterns, written as in the source. -/
def orgPatterns : List String :=
  ["noaa", "national.?oceanic", "university.?of", "institute",
   "center", "lab", "department", "ministry", "agency",
   "corporation", "inc\\.", "ltd\\.", "corp\\."]

/-- `_is_organization`: any organization pattern matches the lowered text. -/
def isOrganization (text : String) : Bool :=
  orgPatterns.any (fun p => reSearch p (lowerS text))

/-- Split on whitespace runs, as Python `str.split()`. -/
def splitWSAux : List Char → List Char → List (List Char)
  | [], acc => if acc.isEmpty then [] else [acc.reverse]
  | c :: cs, acc =>
    if isWSb c then
      if acc.isEmpty then splitWSAux cs [] else acc.reverse :: splitWSAux cs []
    else splitWSAux cs (c :: acc)

def splitWS (cs : List Char) : List (List Char) := splitWSAux cs []

/-- `' '.join(words)`. -/
def joinSpace : List (List Char) → List Char
  | [] => []
  | [w] => w
  | w :: ws => w ++ ' ' :: joinSpace ws

/-- Recognize the separator of `re.split(r'\s+and\s+', ..., re.IGNORECASE)`
at the head of the input; on success return the input after the separator. -/
def matchAndSep (cs : List Char) : Option (List Char) :=
  if (cs.takeWhile isWSb).isEmpty then none
  else
    match cs.dropWhile isWSb with
    | a :: n :: d :: rest =>
      if lcChar a == 'a' && lcChar n == 'n' && lcChar d == 'd' then
        if (rest.takeWhile isWSb).isEmpty then none
        else some (rest.dropWhile isWSb)
      else none
    | _ => none

/-- `re.split(r'\s+and\s+', s, flags=re.IGNORECASE)` (fuel-driven scan;
the fuel is the input length, ample since every step consumes a character). -/
def splitAndAux : Nat → List Char → List Char → List String
  | 0, cs, acc => [String.mk (acc.reverse ++ cs)]
  | _ + 1, [], acc => [String.mk acc.reverse]
  | fuel + 1, c :: cs, acc =>
    match matchAndSep (c :: cs) with
    | some rest => String.mk acc.reverse :: splitAndAux fuel rest []
    | none => splitAndAux fuel cs (c :: acc)

def splitAnd (s : String) : List String := splitAndAux s.data.length s.data []

/-- `_parse_single_creator`: "Last, First" or "First Last" (last word =
family name), otherwise kept as-is (with a non-blocking warning, omitted
here).  The Python function always returns a creator dictionary. -/
def parseSingleCreator (nameText : String) : Creator :=
  let cs := nameText.data
  if containsL [','] cs then
    let family := stripS (String.mk (cs.takeWhile (fun c => !(c == ','))))
    let given := stripS (String.mk ((cs.dropWhile (fun c => !(c == ','))).drop 1))
    ⟨family ++ ", " ++ given, none⟩
  else
    let words := splitWS cs
    if words.length ≥ 2 then
      ⟨String.mk (words.getLastD []) ++ ", " ++ String.mk (joinSpace (words.dropLast)), none⟩
    else ⟨nameText, none⟩

/-- `_format_creator_name`: organization detection, "and"-splitting, then
single-name parsing. -/
def formatCreatorName (originText : String) : Option Creator :=
  if isOrganization originText then some ⟨originText, some "Organization"⟩
  else if containsS (lowerS originText) " and " then
    let creators := (splitAnd originText).map (fun p => parseSingleCreator (stripS p))
    if creators.length == 1 then creators.head? else none
  else some (parseSingleCreator originText)

/-- Creators contributed by a single `origin` element's text. -/
def creatorsOfOrigin (originText : String) : List Creator :=
  let t := stripS originText
  if t.data.isEmpty then []
  else if containsS (lowerS t) " and " then
    (splitAnd t).map (fun p => parseSingleCreator (stripS p))
  else
    match formatCreatorName t with
    | some c => [c]
    | none => []

/-- `_extract_creators`: fold the `origin` elements; an empty result means
the required field is missing (error logged, omitted here). -/
def extractCreators (origins : List (Option String)) : List Creator :=
  origins.foldl (fun acc o =>
    match o with
    | some s => acc ++ creatorsOfOrigin s
    | none => acc) []

/-! ### Publication date and description fallback chains -/

/-- One date element attempt: strip the text, then normalize. -/
def tryDateElem (dateutilParse : String → Option (Nat × Nat × Nat))
    (currentYear : Nat) (o : Option String) : Option String :=
  match o with
  | some s =>
    let t := stripS s
    if t.data.isEmpty then none else normalizeDate dateutilParse currentYear t
  | none => none

/-- `_extract_publication_date`: `pubdate`, then `metd` as fallback. -/
def extractPublicationDate (dateutilParse : String → Option (Nat × Nat × Nat))
    (currentYear : Nat) (pubdate metd : Option String) : Option String :=
  match tryDateElem dateutilParse currentYear pubdate with
  | some d => some d
  | none => tryDateElem dateutilParse currentYear metd

/-- One description element attempt: the stripped text when non-empty. -/
def tryTextElem (o : Option String) : Option String :=
  match o with
  | some s =>
    let t := stripS s
    if t.data.isEmpty then none else some t
  | none => none

/-- `_extract_description`: ordered fallback chain
abstract → purpose → supplinf → "Dataset: " ++ title → failure. -/
def extractDescription (abstract purpose supplinf titleText : Option String) :
    Option String :=
  match tryTextElem abstract with
  | some d => some d
  | none =>
    match tryTextElem purpose with
    | some d => some d
    | none =>
      match tryTextElem supplinf with
      | some d => some d
      | none =>
        match tryTextElem titleText with
        | some t => some ("Dataset: " ++ t)
        | none => none

/-! ### License & access classifier
(`_extract_access_constraints`, `_detect_license`) -/

/-- The fixed license pattern registry, keys and patterns as in the source. -/
def licensePatterns : List (String × List String) :=
  [("cc-zero", ["cc.?zero", "public.?domain", "no.?rights.?reserved", "public.?domain"]),
   ("cc-by-4.0", ["cc.?by.?4", "creative.?commons.?attribution", "cc.?by"]),
   ("cc-by-sa-4.0", ["cc.?by.?sa.?4", "creative.?commons.?sharealike", "cc.?by.?sa"]),
   ("mit", ["mit.?license", "massachusetts.?institute.?of.?technology"]),
   ("apache-2.0", ["apache.?2", "apache.?license"]),
   ("gpl-3.0", ["gpl.?3", "gnu.?general.?public.?license.?3"]),
   ("open", ["open.?access", "freely.?available", "no.?restrictions"])]

/-- `_detect_license`: empty text → `none`; "none"-like text → the default
`"cc-zero"`; otherwise the first registry key one of whose patterns matches. -/
def detectLicense (useconstText : String) : Option String :=
  if useconstText.data.isEmpty then none
  else
    let textLower := stripS (lowerS useconstText)
    if ["none", "n/a", "not applicable", "not specified"].any (fun t => textLower == t)
    then some "cc-zero"
    else
      match licensePatterns.find? (fun kp => kp.2.any (fun p => reSearch p textLower)) with
      | some kp => some kp.1
      | none => none

/-- The open-phrasing test of `_extract_access_constraints`:
`accconst_text.lower() in ['none', 'open', 'public']`. -/
def isOpenPhrase (accconstText : String) : Bool :=
  ["none", "open", "public"].any (fun t => lowerS accconstText == t)

/-- The restricted-phrasing test of `_extract_access_constraints`:
any of the keywords occurs in the lowered text. -/
def isRestrictedPhrase (accconstText : String) : Bool :=
  ["restricted", "by request", "registration"].any
    (fun w => containsS (lowerS accconstText) w)

/-- `_extract_access_constraints`, returning the resulting
(access_right, access_conditions, license) triple given the metadata's
current license value `license0`. -/
def extractAccessConstraints (license0 : String) (accconstText useconstText : String) :
    String × Option String × String :=
  let arCond : String × Option String :=
    if isOpenPhrase accconstText then ("open", none)
    else if isRestrictedPhrase accconstText then ("restricted", some accconstText)
    else ("open", none)
  let lic : String :=
    match detectLicense useconstText with
    | some l => l
    | none =>
      if arCond.1 == "open" || arCond.1 == "embargoed" then "cc-zero" else license0
  (arCond.1, arCond.2, lic)

/-! ### Keywords and subjects -/

/-- Add stripped, non-empty, not-yet-present keywords in order
(the `if keyword and keyword not in keywords` accumulation). -/
def addKeys (acc : List String) (keys : List (Option String)) : List String :=
  keys.foldl (fun acc o =>
    match o with
    | some s =>
      let k := stripS s
      if k.data.isEmpty || acc.contains k then acc else acc ++ [k]
    | none => acc) acc

/-- `_extract_keywords`: theme, place, stratum and temporal keywords of every
section, globally de-duplicated. -/
def extractKeywords (sections : List KwSection) : List String :=
  sections.foldl (fun acc sec =>
    addKeys (addKeys (addKeys (addKeys acc sec.themekeys) sec.placekeys)
      sec.stratumkeys) sec.temporalkeys) []

/-- `_extract_subjects`: theme keywords of sections whose thesaurus name is
declared and not generic ("other"/"none"/empty). -/
def extractSubjects (sections : List KwSection) : List Subject :=
  sections.foldl (fun acc sec =>
    let thesaurus : Option String :=
      match textNE sec.themekt with
      | some s => some (stripS s)
      | none => none
    match thesaurus with
    | some nm =>
      if nm.data.isEmpty || ["other", "none", ""].any (fun t => lowerS nm == t) then acc
      else
        sec.themekeys.foldl (fun acc o =>
          match o with
          | some s =>
            let term := stripS s
            if term.data.isEmpty then acc
            else acc ++ [⟨term, nm ++ ":" ++ term, "thesaurus"⟩]
          | none => acc) acc
    | none => acc) []

/-! ### Contributors (`_extract_contributors`, `_extract_contact_info`) -/

/-- `_extract_contact_info`: the contact person's name, formatted like a
creator, tagged with the contact type. -/
def extractContactInfo (cntperText : Option String) (contactType : String) :
    Option Creator :=
  match cntperText with
  | none => none
  | some s =>
    let nm := stripS s
    if nm.data.isEmpty then none
    else
      match formatCreatorName nm with
      | some f => some ⟨f.name, some contactType⟩
      | none => none

/-- `_extract_contributors`: point of contact, then distributor. -/
def extractContributors (doc : FGDCDoc) : List Creator :=
  (match extractContactInfo doc.ptcontacName "ContactPerson" with
   | some c => [c]
   | none => [])
  ++ (match extractContactInfo doc.distribName "Distributor" with
      | some c => [c]
      | none => [])

/-! ### Spatial coverage (`_extract_spatial_coverage`)

The function only appends a summary line to `notes`; the embedded version
returns the wrapped bounding box together with the dateline-crossing flag
(`true` exactly when `record_bbox_issue`/the crossing warning fire and the
summary carries the "(crosses dateline)" annotation). -/

def extractSpatialCoverage (b : BBoxQ) : BBoxQ × Bool :=
  if b.west > b.east then
    let w := if b.west > 180 then b.west - 360 else b.west
    let e := if b.east > 180 then b.east - 360 else b.east
    if w > e then ({ b with west := w, east := e }, true)
    else ({ b with west := w, east := e }, false)
  else
    let w := if b.west > 180 then b.west - 360 else b.west
    let e := if b.east > 180 then b.east - 360 else b.east
    ({ b with west := w, east := e }, false)

/-! ### Related identifiers and URL handling -/

/-- Characters allowed in a URL scheme by `urllib.parse`. -/
def schemeChar (c : Char) : Bool :=
  c.isAlpha || c.isDigit || c == '+' || c == '-' || c == '.'

/-- The scheme and netloc of `urllib.parse.urlparse` (the two components
`_is_valid_url` inspects): the scheme is the valid lowered prefix before the
first colon, the netloc follows a leading `//` up to `/`, `?` or `#`. -/
def urlparseSchemeNetloc (s : String) : String × String :=
  let cs := s.data
  let pre := cs.takeWhile (fun c => !(c == ':'))
  let schemeOk : Bool :=
    decide (pre.length < cs.length) &&
    (match pre with
     | [] => false
     | c :: rest => c.isAlpha && rest.all schemeChar)
  let scheme := if schemeOk then String.mk (pre.map lcChar) else ""
  let rest := if schemeOk then cs.drop (pre.length + 1) else cs
  let netloc :=
    match rest with
    | '/' :: '/' :: r =>
      String.mk (r.takeWhile (fun c => !(c == '/' || c == '?' || c == '#')))
    | _ => ""
  (scheme, netloc)

/-- `_is_valid_url`: both scheme and netloc non-empty. -/
def isValidUrl (url : String) : Bool :=
  let p := urlparseSchemeNetloc url
  !(p.1.data.isEmpty) && !(p.2.data.isEmpty)

/-- The character class of the URL-extraction regex
`http[s]?://(?:[a-zA-Z]|[0-9]|[$-_@.&+]|[!*\\(\\),]|(?:%[0-9a-fA-F][0-9a-fA-F]))+`:
`[$-_@.&+]` is the range 0x24–0x5F plus literals already inside it, the next
class adds `!`, `*`, `\`, parentheses and comma, so the union is
0x24–0x5F, lower-case letters and `!`. -/
def urlChar (c : Char) : Bool :=
  (36 ≤ c.toNat && c.toNat ≤ 95) || (97 ≤ c.toNat && c.toNat ≤ 122) || c == '!'

/-- `re.findall` of the URL pattern: maximal runs of `urlChar` after an
`http://` or `https://` prefix (fuel-driven scan over the input). -/
def findUrlsAux : Nat → List Char → List String
  | 0, _ => []
  | _ + 1, [] => []
  | fuel + 1, c :: cs =>
    let t := c :: cs
    if startsWithL "https://".data t then
      let rest := t.drop 8
      let run := rest.takeWhile urlChar
      if run.isEmpty then findUrlsAux fuel cs
      else ("https://" ++ String.mk run) :: findUrlsAux fuel (rest.drop run.length)
    else if startsWithL "http://".data t then
      let rest := t.drop 7
      let run := rest.takeWhile urlChar
      if run.isEmpty then findUrlsAux fuel cs
      else ("http://" ++ String.mk run) :: findUrlsAux fuel (rest.drop run.length)
    else findUrlsAux fuel cs

/-- `_extract_urls_from_text`. -/
def extractUrlsFromText (s : String) : List String :=
  findUrlsAux s.data.length s.data

/-- One `onlink` element: the stripped text is appended when it is a valid
URL. -/
def onlinkStep (acc : List RelId) (o : Option String) : List RelId :=
  match textNE o with
  | some s =>
    let url := stripS s
    if isValidUrl url then acc ++ [⟨url, "isAlternateIdentifier"⟩] else acc
  | none => acc

/-- One `crossref` element: every URL extracted from the text is appended. -/
def crossrefStep (acc : List RelId) (o : Option String) : List RelId :=
  match textNE o with
  | some s =>
    acc ++ (extractUrlsFromText (stripS s)).map (fun u => ⟨u, "isRelatedTo"⟩)
  | none => acc

/-- `_extract_related_identifiers`: online links filtered through
`_is_valid_url` (relation `isAlternateIdentifier`), then URLs extracted from
cross-reference text (relation `isRelatedTo`). -/
def extractRelatedIdentifiers (onlinks crossrefs : List (Option String)) :
    List RelId :=
  onlinks.foldl onlinkStep [] ++ crossrefs.foldl crossrefStep []

/-- `_extract_references`: other citation details, then larger work citation. -/
def extractReferences (doc : FGDCDoc) : List String :=
  (match textNE doc.othercit with
   | some s => [stripS s]
   | none => [])
  ++ (match textNE doc.lworkcit with
      | some s => [stripS s]
      | none => [])

/-- `_build_notes` restricted to the modelled elements (purpose, supplinf,
access and use constraints; progress/update are not modelled). -/
def buildNotes (doc : FGDCDoc) : String :=
  let parts : List String :=
    (match textNE doc.purpose with
     | some s => ["Purpose: " ++ stripS s]
     | none => [])
    ++ (match textNE doc.supplinf with
        | some s => ["Supplemental Information: " ++ stripS s]
        | none => [])
    ++ (match textNE doc.accconst with
        | some s => ["Access constraints: " ++ stripS s]
        | none => [])
    ++ (match textNE doc.useconst with
        | some s => ["Use constraints: " ++ stripS s]
        | none => [])
  String.intercalate "\n\n" parts

/-! ### Additional crosswalk fields (`_extract_additional_fields` and the
sub-extractors that touch non-notes fields) -/

/-- `_extract_security_info`: a restricted/confidential/secret security
classification forces restricted access with a default condition string,
extended by the handling instructions. -/
def extractSecurityInfo (doc : FGDCDoc) (m : ZMeta) : ZMeta :=
  match textNE doc.secclass with
  | none => m
  | some s =>
    if ["restricted", "confidential", "secret"].any
        (fun t => lowerS (stripS s) == t) then
      let m1 := { m with access_right := some "restricted" }
      let m2 :=
        match m1.access_conditions with
        | none =>
          let c := some ("Security classification: " ++ stripS s)
          { m1 with access_conditions := c }
        | some _ => m1
      match textNE doc.sechandl with
      | some h =>
        let c := some ((m2.access_conditions.getD "") ++ "; Handling: " ++ stripS h)
        { m2 with access_conditions := c }
      | none => m2
    else m

/-- The fees handling of `_extract_distribution_info` (row 53); the
non-restricted branch only appends to notes and is omitted. -/
def extractFeesInfo (doc : FGDCDoc) (m : ZMeta) : ZMeta :=
  match textNE doc.fees with
  | none => m
  | some f =>
    if m.access_right == some "restricted" then
      let c := some ((m.access_conditions.getD "") ++ " Fees: " ++ stripS f)
      { m with access_conditions := c }
    else m

/-- Append a related identifier to the metadata (the
`metadata['related_identifiers'].append(...)` idiom, where the key always
exists once `_build_zenodo_metadata` has initialised it). -/
def appendRelId (m : ZMeta) (r : RelId) : ZMeta :=
  { m with related_identifiers := some ((m.related_identifiers.getD []) ++ [r]) }

/-- Edition → `version` (row 5). -/
def editionStep (doc : FGDCDoc) (m : ZMeta) : ZMeta :=
  match textNE doc.edition with
  | some s => { m with version := some (stripS s) }
  | none => m

/-- Series name → `partof_title` (row 6). -/
def sernameStep (doc : FGDCDoc) (m : ZMeta) : ZMeta :=
  match textNE doc.sername with
  | some s => { m with partof_title := some (stripS s) }
  | none => m

/-- Issue identification → `journal_issue` (row 7). -/
def issueStep (doc : FGDCDoc) (m : ZMeta) : ZMeta :=
  match textNE doc.issue with
  | some s => { m with journal_issue := some (stripS s) }
  | none => m

/-- Publication place → `imprint_place` (row 8). -/
def pubplaceStep (doc : FGDCDoc) (m : ZMeta) : ZMeta :=
  match textNE doc.pubplace with
  | some s => { m with imprint_place := some (stripS s) }
  | none => m

/-- Publisher → `imprint_publisher` (row 9). -/
def publishStep (doc : FGDCDoc) (m : ZMeta) : ZMeta :=
  match textNE doc.publish with
  | some s => { m with imprint_publisher := some (stripS s) }
  | none => m

/-- Other citation details appended to `references` (row 10). -/
def othercitStep (doc : FGDCDoc) (m : ZMeta) : ZMeta :=
  match textNE doc.othercit with
  | some s => { m with references := some ((m.references.getD []) ++ [stripS s]) }
  | none => m

/-- Larger work citation appended to `related_identifiers` (row 12). -/
def lworkcitStep (doc : FGDCDoc) (m : ZMeta) : ZMeta :=
  match textNE doc.lworkcit with
  | some s => appendRelId m ⟨stripS s, "isPartOf"⟩
  | none => m

/-- Browse graphics appended to `related_identifiers` (row 28). -/
def browsedStep (doc : FGDCDoc) (m : ZMeta) : ZMeta :=
  doc.browsed.foldl (fun m o =>
    match textNE o with
    | some s => appendRelId m ⟨stripS s, "isDocumentedBy"⟩
    | none => m) m

/-- Entity-attribute detail citation appended to `related_identifiers`
(row 46). -/
def eadetcitStep (doc : FGDCDoc) (m : ZMeta) : ZMeta :=
  match textNE doc.eadetcit with
  | some s => appendRelId m ⟨stripS s, "isDocumentedBy"⟩
  | none => m

/-- Online-distribution network resource appended to `related_identifiers`
(row 51). -/
def networkrStep (doc : FGDCDoc) (m : ZMeta) : ZMeta :=
  match textNE doc.networkr with
  | some s => appendRelId m ⟨stripS s, "isSupplementedBy"⟩
  | none => m

/-- `_extract_additional_fields` restricted to the non-notes fields:
version, series, issue, publication place, publisher, extra references,
larger-work / browse-graphic / entity-attribute / online-distribution
related identifiers, security information and fees, in source order. -/
def extractAdditionalFields (doc : FGDCDoc) (m0 : ZMeta) : ZMeta :=
  extractFeesInfo doc
    (networkrStep doc
      (eadetcitStep doc
        (extractSecurityInfo doc
          (browsedStep doc
            (lworkcitStep doc
              (othercitStep doc
                (publishStep doc
                  (pubplaceStep doc
                    (issueStep doc
                      (sernameStep doc
                        (editionStep doc m0)))))))))))

/-- `_add_optional_fields` (spatial coverage and the purely narrative
sections only touch `notes`, whose extra appends are omitted). -/
def addOptionalFields (doc : FGDCDoc) (m0 : ZMeta) : ZMeta :=
  let m := { m0 with keywords := some (extractKeywords doc.keywordSections) }
  let m := { m with subjects := some (extractSubjects doc.keywordSections) }
  let acl := extractAccessConstraints (m.license.getD "")
    (stripOrEmpty doc.accconst) (stripOrEmpty doc.useconst)
  let m := { m with access_right := some acl.1,
                    access_conditions :=
                      (match acl.2.1 with
                       | some c => some c
                       | none => m.access_conditions),
                    license := some acl.2.2 }
  let m := { m with contributors := some (extractContributors doc) }
  let rids := some (extractRelatedIdentifiers doc.onlinks doc.crossrefs)
  let m := { m with related_identifiers := rids }
  let m := { m with references := some (extractReferences doc) }
  let m := { m with notes := some (buildNotes doc) }
  extractAdditionalFields doc m

/-- `_build_zenodo_metadata`: fail-fast extraction of the four required
fields, then the base dictionary, then the optional fields. -/
def buildZenodoMetadata (dateutilParse : String → Option (Nat × Nat × Nat))
    (currentYear : Nat) (doc : FGDCDoc) (filePath : String) : Option ZMeta :=
  match (extractTitle filePath doc.title).1 with
  | none => none
  | some title =>
    let creators := extractCreators doc.origins
    if creators.isEmpty then none
    else
      match extractPublicationDate dateutilParse currentYear doc.pubdate doc.metd with
      | none => none
      | some pubdate =>
        match extractDescription doc.abstract doc.purpose doc.supplinf doc.title with
        | none => none
        | some descr =>
          let base : ZMeta :=
            { title := some title
              upload_type := some "dataset"
              publication_date := some pubdate
              creators := some creators
              description := some descr
              access_right := some "open"
              license := some "cc-zero"
              keywords := some []
              notes := some ""
              related_identifiers := some []
              contributors := some []
              references := some []
              communities := some ["pices"] }
          some (addOptionalFields doc base)

/-! ### Canonical record DTO (`scripts/dto.py`) -/

/-- `CanonicalRecordDTO.PICES_PUBLISHER`. -/
def PICES_PUBLISHER : String := "North Pacific Marine Science Organization"

/-- `CanonicalRecordDTO.__post_init__`: a truthy publisher different from the
canonical one is moved to `imprint_publisher`; the publisher is then forced
to the canonical value. -/
def canonicalPostInit (m : ZMeta) : ZMeta :=
  let m1 :=
    match m.publisher with
    | some p =>
      if !(p.data.isEmpty) && !(p == PICES_PUBLISHER) then
        { m with imprint_publisher := some p }
      else m
    | none => m
  { m1 with publisher := some PICES_PUBLISHER }

/-- A related-identifier dictionary as consumed by
`merge_related_identifiers`: the dedup key fields (`.get` may yield `None`)
plus the remaining inert payload. -/
structure RIdItem where
  identifier : Option String := none
  relation : Option String := none
  extra : List (String × String) := []
deriving DecidableEq

/-- The dedup key `(item.get("identifier"), item.get("relation"))`. -/
def ridKey (r : RIdItem) : Option String × Option String := (r.identifier, r.relation)

/-- One step of the merge loop: skip a seen key, otherwise append the item
and its key. -/
def mergeStep (st : List RIdItem × List (Option String × Option String))
    (r : RIdItem) : List RIdItem × List (Option String × Option String) :=
  if st.2.contains (ridKey r) then st
  else (st.1 ++ [r], st.2 ++ [ridKey r])

/-- `merge_related_identifiers` on the `related_identifiers` value
(`metadata.get("related_identifiers") or []` is the `existing` argument):
append each incoming item whose key is not yet in the key set. -/
def mergeRelatedIdentifiers (existing incoming : List RIdItem) : List RIdItem :=
  (incoming.foldl mergeStep (existing, existing.map ridKey)).1

/-! ### Validator (`scripts/validate_zenodo.py`)

`validate_file` is modelled from the point where the metadata dictionary is
in hand.  `dateutil.parser.parse` is the parameter `duParses` (true = the
external parser accepts the date string); `datetime.now().isoformat()` is
the parameter `now`.  Creator/contributor/related-identifier entries are
typed records here, so the "is not a dictionary" / "missing name" branches
for malformed shapes are unrepresentable and the corresponding issues never
fire in the model. -/

/-- Truthiness of an optional string value. -/
def truthyS : Option String → Bool
  | none => false
  | some s => !s.data.isEmpty

/-- Truthiness of an optional list value. -/
def truthyL {α : Type} : Option (List α) → Bool
  | none => false
  | some l => !l.isEmpty

def validUploadTypes : List String :=
  ["publication", "poster", "presentation", "dataset", "image",
   "video", "software", "lesson", "physicalobject", "other"]

def validAccessRights : List String := ["open", "embargoed", "restricted", "closed"]

def validRelations : List String :=
  ["isCitedBy", "cites", "isSupplementTo", "isSupplementedBy",
   "isContinuedBy", "continues", "isDescribedBy", "describes",
   "hasMetadata", "isMetadataFor", "isNewVersionOf", "isPreviousVersionOf",
   "isPartOf", "hasPart", "isReferencedBy", "references",
   "isDocumentedBy", "documents", "isCompiledBy", "compiles",
   "isVariantFormOf", "isOriginalFormof", "isIdenticalTo",
   "isAlternateIdentifier", "isReviewedBy", "reviews",
   "isDerivedFrom", "isSourceOf", "requires", "isRequiredBy",
   "isObsoletedBy", "obsoletes"]

def validContributorTypes : List String :=
  ["ContactPerson", "DataCollector", "DataCurator", "DataManager",
   "Distributor", "Editor", "HostingInstitution", "Producer",
   "ProjectLeader", "ProjectManager", "ProjectMember",
   "RegistrationAgency", "RegistrationAuthority", "RelatedPerson",
   "Researcher", "ResearchGroup", "RightsHolder", "Supervisor",
   "Sponsor", "WorkPackageLeader", "Other"]

/-- `ZenodoValidator._is_valid_license`. -/
def validatorLicenses : List String :=
  ["cc-zero", "cc-by-4.0", "cc-by-sa-4.0", "cc-by-nc-4.0",
   "mit", "apache-2.0", "gpl-3.0", "gpl-2.0", "bsd-3-clause",
   "lgpl-3.0", "mpl-2.0", "epl-1.0", "cddl-1.0"]

/-- `^\d{4}-\d{2}-\d{2}$`. -/
def isYMD : List Char → Bool
  | [a, b, c, d, '-', e, f, '-', g, h] => [a, b, c, d, e, f, g, h].all Char.isDigit
  | _ => false

/-- `re.match(r'^10\.\d+/', identifier)`. -/
def isDOIPrefix : List Char → Bool
  | '1' :: '0' :: '.' :: rest =>
    let ds := rest.takeWhile Char.isDigit
    !ds.isEmpty && (match rest.drop ds.length with
                    | '/' :: _ => true
                    | _ => false)
  | _ => false

/-- `ZenodoValidator._is_valid_identifier`: DOI, URL, or a known prefix. -/
def isValidIdentifier (id : String) : Bool :=
  isDOIPrefix id.data || isValidUrl id ||
  ["isbn:", "issn:", "pmid:", "arxiv:"].any
    (fun p => startsWithL p.data (lowerS id).data)

/-- `all_zenodo_fields`, as in the source. -/
def allZenodoFields : List String :=
  ["title", "upload_type", "publication_date", "creators", "description", "access_right",
   "license", "communities", "keywords", "notes", "related_identifiers", "contributors",
   "references", "subjects", "grants", "locations", "dates", "method", "access_conditions",
   "embargo_date", "version", "language", "imprint_publisher", "imprint_place", "imprint_isbn",
   "partof_title", "partof_pages", "journal_title", "journal_volume", "journal_issue",
   "journal_pages", "conference_title", "conference_acronym", "conference_dates",
   "conference_place", "conference_url", "conference_session", "conference_session_part",
   "thesis_supervisors", "thesis_university"]

def validatorRequiredFields : List String :=
  ["title", "upload_type", "publication_date", "creators", "description", "access_right"]

/-- Key present in the metadata dictionary (model: the field is `some`). -/
def fieldPresent (m : ZMeta) : String → Bool := fun f =>
  if f == "title" then m.title.isSome
  else if f == "upload_type" then m.upload_type.isSome
  else if f == "publication_date" then m.publication_date.isSome
  else if f == "creators" then m.creators.isSome
  else if f == "description" then m.description.isSome
  else if f == "access_right" then m.access_right.isSome
  else if f == "license" then m.license.isSome
  else if f == "communities" then m.communities.isSome
  else if f == "keywords" then m.keywords.isSome
  else if f == "notes" then m.notes.isSome
  else if f == "related_identifiers" then m.related_identifiers.isSome
  else if f == "contributors" then m.contributors.isSome
  else if f == "references" then m.references.isSome
  else if f == "subjects" then m.subjects.isSome
  else if f == "access_conditions" then m.access_conditions.isSome
  else if f == "version" then m.version.isSome
  else if f == "imprint_publisher" then m.imprint_publisher.isSome
  else if f == "imprint_place" then m.imprint_place.isSome
  else if f == "partof_title" then m.partof_title.isSome
  else if f == "journal_issue" then m.journal_issue.isSome
  else false

/-- Key present with a truthy value. -/
def fieldTruthy (m : ZMeta) : String → Bool := fun f =>
  if f == "title" then truthyS m.title
  else if f == "upload_type" then truthyS m.upload_type
  else if f == "publication_date" then truthyS m.publication_date
  else if f == "creators" then truthyL m.creators
  else if f == "description" then truthyS m.description
  else if f == "access_right" then truthyS m.access_right
  else if f == "license" then truthyS m.license
  else if f == "communities" then truthyL m.communities
  else if f == "keywords" then truthyL m.keywords
  else if f == "notes" then truthyS m.notes
  else if f == "related_identifiers" then truthyL m.related_identifiers
  else if f == "contributors" then truthyL m.contributors
  else if f == "references" then truthyL m.references
  else if f == "subjects" then truthyL m.subjects
  else if f == "access_conditions" then truthyS m.access_conditions
  else if f == "version" then truthyS m.version
  else if f == "imprint_publisher" then truthyS m.imprint_publisher
  else if f == "imprint_place" then truthyS m.imprint_place
  else if f == "partof_title" then truthyS m.partof_title
  else if f == "journal_issue" then truthyS m.journal_issue
  else false

/-! ### A value view of the metadata dictionary

`metaItems` lists the present keys in dictionary insertion order together
with their values, a string or a list of items, each item reduced to its
string values in key order (that is all the character-counting code ever
reads from a value). -/

inductive FieldV
  | vstr (s : String)
  | vlist (items : List (List String))
deriving DecidableEq

/-- The string values of a creator dictionary, in key order. -/
def creatorVals (c : Creator) : List String :=
  c.name :: (match c.ctype with
             | some t => [t]
             | none => [])

/-- The string values of a related-identifier dictionary. -/
def relIdVals (r : RelId) : List String := [r.identifier, r.relation]

/-- The string values of a subject dictionary. -/
def subjectVals (s : Subject) : List String := [s.term, s.identifier, s.scheme]

/-- The metadata dictionary as an item list (present keys only), in the
insertion order produced by the transformation pipeline. -/
def metaItems (m : ZMeta) : List (String × FieldV) :=
  (match m.title with
   | some v => [("title", FieldV.vstr v)]
   | none => [])
  ++ (match m.upload_type with
      | some v => [("upload_type", FieldV.vstr v)]
      | none => [])
  ++ (match m.publication_date with
      | some v => [("publication_date", FieldV.vstr v)]
      | none => [])
  ++ (match m.creators with
      | some v => [("creators", FieldV.vlist (v.map creatorVals))]
      | none => [])
  ++ (match m.description with
      | some v => [("description", FieldV.vstr v)]
      | none => [])
  ++ (match m.access_right with
      | some v => [("access_right", FieldV.vstr v)]
      | none => [])
  ++ (match m.license with
      | some v => [("license", FieldV.vstr v)]
      | none => [])
  ++ (match m.keywords with
      | some v => [("keywords", FieldV.vlist (v.map (fun k => [k])))]
      | none => [])
  ++ (match m.notes with
      | some v => [("notes", FieldV.vstr v)]
      | none => [])
  ++ (match m.related_identifiers with
      | some v => [("related_identifiers", FieldV.vlist (v.map relIdVals))]
      | none => [])
  ++ (match m.contributors with
      | some v => [("contributors", FieldV.vlist (v.map creatorVals))]
      | none => [])
  ++ (match m.references with
      | some v => [("references", FieldV.vlist (v.map (fun k => [k])))]
      | none => [])
  ++ (match m.communities with
      | some v => [("communities", FieldV.vlist (v.map (fun k => [k])))]
      | none => [])
  ++ (match m.subjects with
      | some v => [("subjects", FieldV.vlist (v.map subjectVals))]
      | none => [])
  ++ (match m.access_conditions with
      | some v => [("access_conditions", FieldV.vstr v)]
      | none => [])
  ++ (match m.version with
      | some v => [("version", FieldV.vstr v)]
      | none => [])
  ++ (match m.partof_title with
      | some v => [("partof_title", FieldV.vstr v)]
      | none => [])
  ++ (match m.journal_issue with
      | some v => [("journal_issue", FieldV.vstr v)]
      | none => [])
  ++ (match m.imprint_place with
      | some v => [("imprint_place", FieldV.vstr v)]
      | none => [])
  ++ (match m.imprint_publisher with
      | some v => [("imprint_publisher", FieldV.vstr v)]
      | none => [])
  ++ (match m.publisher with
      | some v => [("publisher", FieldV.vstr v)]
      | none => [])

/-- Characters of a list value: string items and string dictionary values. -/
def listChars (items : List (List String)) : Nat :=
  (items.map (fun vs => (vs.map (fun s => s.data.length)).sum)).sum

/-! ### Validation result snapshots -/

structure FieldCoverage where
  total_possible_fields : Nat
  fields_present : List String
  fields_missing : List String
  coverage_percentage : ℚ
  required_fields_present : Nat
  required_fields_missing : List String
  optional_fields_present : Nat
  optional_fields_missing : List String
deriving DecidableEq

/-- `ZenodoValidator._analyze_field_coverage`. -/
def analyzeFieldCoverage (m : ZMeta) : FieldCoverage :=
  let present := allZenodoFields.filter (fun f => fieldTruthy m f)
  let missing := allZenodoFields.filter (fun f => !(fieldTruthy m f))
  { total_possible_fields := allZenodoFields.length
    fields_present := present
    fields_missing := missing
    coverage_percentage :=
      ((present.length : ℚ) / (allZenodoFields.length : ℚ)) * 100
    required_fields_present :=
      (present.filter (fun f => validatorRequiredFields.contains f)).length
    required_fields_missing :=
      missing.filter (fun f => validatorRequiredFields.contains f)
    optional_fields_present :=
      (present.filter (fun f => !(validatorRequiredFields.contains f))).length
    optional_fields_missing :=
      missing.filter (fun f => !(validatorRequiredFields.contains f)) }

/-- `field_limits` (string fields), as in the source, restricted to the
modelled keys (unmodelled keys are never present). -/
def fieldLimits : List (String × Nat) :=
  [("title", 250), ("description", 10000), ("notes", 20000),
   ("access_conditions", 20000), ("version", 50), ("license", 50),
   ("imprint_publisher", 250), ("imprint_place", 250),
   ("partof_title", 250), ("journal_issue", 50)]

structure OverLimit where
  field : String
  count : Nat
  limit : Nat
  excess : Int
deriving DecidableEq

structure CharAnalysis where
  total_characters : Nat
  field_character_counts : List (String × Nat)
  largest_fields : List (String × Nat)
  fields_over_limit : List OverLimit
  average_chars_per_field : Option ℚ
  fields_with_high_density : List (String × Nat)
deriving DecidableEq

/-- Stable descending insertion (Python `sorted(..., reverse=True)`). -/
def insertDesc (x : String × Nat) : List (String × Nat) → List (String × Nat)
  | [] => [x]
  | y :: ys => if y.2 ≥ x.2 then y :: insertDesc x ys else x :: y :: ys

def sortDesc (l : List (String × Nat)) : List (String × Nat) :=
  l.foldl (fun acc x => insertDesc x acc) []

/-- `ZenodoValidator._analyze_character_counts`. -/
def analyzeCharacterCounts (m : ZMeta) : CharAnalysis :=
  let counts : List (String × Nat) :=
    (metaItems m).foldl (fun acc kv =>
      match kv.2 with
      | FieldV.vstr s => acc ++ [(kv.1, s.data.length)]
      | FieldV.vlist items =>
        let n := listChars items
        if n > 0 then acc ++ [(kv.1, n)] else acc) []
  let total : Nat := (counts.map (fun kv => kv.2)).sum
  let overLimit : List OverLimit :=
    (metaItems m).foldl (fun acc kv =>
      match kv.2 with
      | FieldV.vstr s =>
        match (fieldLimits.find? (fun fl => fl.1 == kv.1)) with
        | some fl =>
          if s.data.length > fl.2 then
            acc ++ [⟨kv.1, s.data.length, fl.2, (s.data.length : Int) - (fl.2 : Int)⟩]
          else acc
        | none => acc
      | FieldV.vlist _ => acc) []
  let avg : Option ℚ :=
    if counts.isEmpty then none
    else some ((total : ℚ) / (counts.length : ℚ))
  { total_characters := total
    field_character_counts := counts
    largest_fields := (sortDesc counts).take 10
    fields_over_limit := overLimit
    average_chars_per_field := avg
    fields_with_high_density :=
      match avg with
      | some a => counts.filter (fun kv => (kv.2 : ℚ) > a * 2)
      | none => [] }

/-- The string field named `f`, for the `field_limits` loop. -/
def getStrField (m : ZMeta) (f : String) : Option String :=
  if f == "title" then m.title
  else if f == "description" then m.description
  else if f == "notes" then m.notes
  else if f == "access_conditions" then m.access_conditions
  else if f == "version" then m.version
  else if f == "license" then m.license
  else if f == "imprint_publisher" then m.imprint_publisher
  else if f == "imprint_place" then m.imprint_place
  else if f == "partof_title" then m.partof_title
  else if f == "journal_issue" then m.journal_issue
  else none

/-- The validation result dictionary (`_create_validation_result`); `file`
is the input path, `timestamp` the `datetime.now().isoformat()` value. -/
structure ValidationResult where
  file : String
  is_valid : Bool
  message : String
  issues : List String
  warnings : List String
  field_coverage : FieldCoverage
  character_analysis : CharAnalysis
  timestamp : String
deriving DecidableEq

/-- `ZenodoValidator.validate_file` from the point where the metadata
dictionary has been read, check for check in source order. -/
def validateMetadata (duParses : String → Bool) (filePath now : String)
    (m : ZMeta) : ValidationResult :=
  let coverage := analyzeFieldCoverage m
  let chars := analyzeCharacterCounts m
  -- required fields
  let issues : List String := validatorRequiredFields.foldl (fun acc f =>
    if !(fieldPresent m f) then acc ++ ["Missing required field: " ++ f]
    else if !(fieldTruthy m f) then acc ++ ["Empty required field: " ++ f]
    else acc) []
  let warnings : List String := []
  -- _validate_title
  let title := m.title.getD ""
  let issues := if title.data.isEmpty || (stripS title).data.isEmpty then
      issues ++ ["Title is empty or missing"] else issues
  let warnings := if !(title.data.isEmpty || (stripS title).data.isEmpty) &&
      title.data.length > 200 then
      warnings ++ ["Title is very long (" ++ toString title.data.length ++ " characters)"]
    else warnings
  -- _validate_upload_type
  let ut := m.upload_type.getD ""
  let issues := if !(validUploadTypes.contains ut) then
      issues ++ ["Invalid upload_type: " ++ ut] else issues
  -- _validate_publication_date
  let pd := m.publication_date.getD ""
  let issues := if pd.data.isEmpty then issues ++ ["Publication date is missing"]
    else if !(duParses pd) then
      issues ++ ["Invalid publication date format: " ++ pd]
    else issues
  let warnings := if !pd.data.isEmpty && duParses pd && !(isYMD pd.data) then
      warnings ++ ["Publication date not in YYYY-MM-DD format: " ++ pd]
    else warnings
  -- _validate_creators
  let creators := m.creators.getD []
  let issues := if creators.isEmpty then issues ++ ["No creators specified"] else issues
  let cw := creators.enum.foldl (fun st ic =>
    let i := toString (ic.1 + 1)
    let nm := ic.2.name
    let st1 := if nm.data.isEmpty then
        (st.1 ++ ["Creator " ++ i ++ " has empty name"], st.2) else st
    if !nm.data.isEmpty && !(containsL [','] nm.data) then
      (st1.1, st1.2 ++ ["Creator " ++ i ++ " name not in 'Family, Given' format: " ++ nm])
    else st1) (issues, warnings)
  let issues := cw.1
  let warnings := cw.2
  -- _validate_description
  let desc := m.description.getD ""
  let issues := if desc.data.isEmpty || (stripS desc).data.isEmpty then
      issues ++ ["Description is empty or missing"] else issues
  let warnings :=
    if !(desc.data.isEmpty || (stripS desc).data.isEmpty) then
      if desc.data.length < 10 then warnings ++ ["Description is very short"]
      else if desc.data.length > 10000 then
        warnings ++ ["Description is very long (" ++ toString desc.data.length ++ " characters)"]
      else warnings
    else warnings
  -- _validate_access_right
  let ar := m.access_right.getD ""
  let issues := if !(validAccessRights.contains ar) then
      issues ++ ["Invalid access_right: " ++ ar] else issues
  let issues := if ar == "restricted" && !(truthyS m.access_conditions) then
      issues ++ ["access_conditions required for restricted access"] else issues
  -- _validate_license
  let lf := m.license.getD ""
  let lcheck :=
    if ["open", "embargoed"].contains ar then
      if lf.data.isEmpty then (issues ++ ["License required for open/embargoed access"], warnings)
      else if !(validatorLicenses.contains lf) then
        (issues, warnings ++ ["Unknown license: " ++ lf])
      else (issues, warnings)
    else (issues, warnings)
  let issues := lcheck.1
  let warnings := lcheck.2
  -- _validate_keywords
  let kws := m.keywords.getD []
  let kcheck := kws.enum.foldl (fun st ik =>
    let i := toString (ik.1 + 1)
    if (stripS ik.2).data.isEmpty then
      (st.1 ++ ["Keyword " ++ i ++ " is empty"], st.2)
    else if ik.2.data.length > 100 then
      (st.1, st.2 ++ ["Keyword " ++ i ++ " is very long: " ++ ik.2])
    else st) (issues, warnings)
  let issues := kcheck.1
  let warnings := kcheck.2
  -- _validate_related_identifiers
  let rids := m.related_identifiers.getD []
  let rcheck := rids.enum.foldl (fun st ir =>
    let i := toString (ir.1 + 1)
    let st1 := if !(validRelations.contains ir.2.relation) then
        (st.1 ++ ["Related identifier " ++ i ++ " has invalid relation: " ++ ir.2.relation], st.2)
      else st
    if !(isValidIdentifier ir.2.identifier) then
      (st1.1, st1.2 ++ ["Related identifier " ++ i ++ " may not be valid: " ++ ir.2.identifier])
    else st1) (issues, warnings)
  let issues := rcheck.1
  let warnings := rcheck.2
  -- _validate_contributors
  let contribs := m.contributors.getD []
  let issues := contribs.enum.foldl (fun acc ic =>
    let i := toString (ic.1 + 1)
    match ic.2.ctype with
    | none => acc ++ ["Contributor " ++ i ++ " missing 'type' field"]
    | some t =>
      if !(validContributorTypes.contains t) then
        acc ++ ["Contributor " ++ i ++ " has invalid type: " ++ t]
      else acc) issues
  -- _validate_communities: entries are identifier records in this model,
  -- so no issue can fire
  -- _validate_field_limits
  let issues := fieldLimits.foldl (fun acc fl =>
    match getStrField m fl.1 with
    | some v =>
      if v.data.length > fl.2 then
        acc ++ ["Field '" ++ fl.1 ++ "' exceeds character limit: "
          ++ toString v.data.length ++ " > " ++ toString fl.2]
      else acc
    | none => acc) issues
  { file := filePath
    is_valid := issues.isEmpty
    message := "Found " ++ toString issues.length ++ " errors and "
      ++ toString warnings.length ++ " warnings"
    issues := issues
    warnings := warnings
    field_coverage := coverage
    character_analysis := chars
    timestamp := now }

/-! ### Quality scorer (`scripts/enhanced_metrics.py`)

Python float arithmetic is modelled over ℚ; `round(x, d)` is exact
round-half-even at `d` decimals.  `datetime.fromisoformat` (used by the
date-quality facet) is the parameter `isoParse`, returning the parsed year
or `none` on a `ValueError`; `datetime.now().year` is `currentYear`.  The
FGDC side of the computation enters only through two numbers: the meaningful
character count and the field count of the source document, which are
functions of the source content alone. -/

/-- Round-half-even to an integer. -/
def rhe (r : ℚ) : ℤ :=
  let f := ⌊r⌋
  let frac := r - f
  if frac < 1/2 then f
  else if frac > 1/2 then f + 1
  else if f % 2 = 0 then f else f + 1

/-- Python `round(x, d)` (round-half-even at `d` decimal places). -/
def roundQ (d : Nat) (x : ℚ) : ℚ := (rhe (x * (10 ^ d : ℚ)) : ℚ) / (10 ^ d : ℚ)

/-- Characters of an optional string value. -/
def strChars : Option String → Nat
  | some s => s.data.length
  | none => 0

/-- Characters of an optional list value, each item reduced to its string
values through `f`. -/
def listVChars {α : Type} (f : α → List String) : Option (List α) → Nat
  | some l => (l.map (fun x => ((f x).map (fun s => s.data.length)).sum)).sum
  | none => 0

/-- `_extract_meaningful_zenodo_data`'s `total_meaningful_chars`: the items
iteration unrolled over the modelled keys. -/
def zenodoMeaningfulChars (m : ZMeta) : Nat :=
  strChars m.title + strChars m.upload_type + strChars m.publication_date +
  listVChars creatorVals m.creators + strChars m.description +
  strChars m.access_right + strChars m.license +
  listVChars (fun k => [k]) m.keywords + strChars m.notes +
  listVChars relIdVals m.related_identifiers +
  listVChars creatorVals m.contributors +
  listVChars (fun k => [k]) m.references +
  listVChars (fun k => [k]) m.communities +
  listVChars subjectVals m.subjects + strChars m.access_conditions +
  strChars m.version + strChars m.partof_title + strChars m.journal_issue +
  strChars m.imprint_place + strChars m.imprint_publisher + strChars m.publisher

/-- One for a present (non-`None`) value. -/
def ind (o : Bool) : Nat := if o then 1 else 0

/-- `_count_mapped_fields` / `mapped_fields`: values that are not `None`. -/
def mappedFieldsCount (m : ZMeta) : Nat :=
  ind m.title.isSome + ind m.upload_type.isSome + ind m.publication_date.isSome +
  ind m.creators.isSome + ind m.description.isSome + ind m.access_right.isSome +
  ind m.license.isSome + ind m.keywords.isSome + ind m.notes.isSome +
  ind m.related_identifiers.isSome + ind m.contributors.isSome +
  ind m.references.isSome + ind m.communities.isSome + ind m.subjects.isSome +
  ind m.access_conditions.isSome + ind m.version.isSome +
  ind m.partof_title.isSome + ind m.journal_issue.isSome +
  ind m.imprint_place.isSome + ind m.imprint_publisher.isSome +
  ind m.publisher.isSome

/-- `content_preservation_ratio` (`round(zenodo/fgdc, 3)`, `0.0` for an
empty source). -/
def contentRatio (fgdcChars : Nat) (m : ZMeta) : ℚ :=
  if fgdcChars > 0 then
    roundQ 3 ((zenodoMeaningfulChars m : ℚ) / (fgdcChars : ℚ))
  else 0

/-- The weight of the present fields, per the `field_weights` tables
(critical: title 20, creators 20, publication_date 15, description 15;
important: keywords 10, access_right 8, license 7, communities 5;
optional: notes 3, related_identifiers 2, contributors 2, references 1,
version 1, imprint_publisher 1). -/
def presentWeight (m : ZMeta) : Nat :=
  (if m.title.isSome then 20 else 0) +
  (if m.creators.isSome then 20 else 0) +
  (if m.publication_date.isSome then 15 else 0) +
  (if m.description.isSome then 15 else 0) +
  (if m.keywords.isSome then 10 else 0) +
  (if m.access_right.isSome then 8 else 0) +
  (if m.license.isSome then 7 else 0) +
  (if m.communities.isSome then 5 else 0) +
  (if m.notes.isSome then 3 else 0) +
  (if m.related_identifiers.isSome then 2 else 0) +
  (if m.contributors.isSome then 2 else 0) +
  (if m.references.isSome then 1 else 0) +
  (if m.version.isSome then 1 else 0) +
  (if m.imprint_publisher.isSome then 1 else 0)

/-- The total weight of all fields in the tables. -/
def totalWeight : Nat :=
  20 + 20 + 15 + 15 + 10 + 8 + 7 + 5 + 3 + 2 + 2 + 1 + 1 + 1

/-- `weighted_coverage_score`. -/
def weightedCoverageScore (m : ZMeta) : ℚ :=
  roundQ 1 (((presentWeight m : ℚ) / (totalWeight : ℚ)) * 100)

/-- ASCII `str.isupper` on one character. -/
def cIsUpper (c : Char) : Bool := 65 ≤ c.toNat && c.toNat ≤ 90

/-- `_assess_title_quality` (score component). -/
def assessTitleQuality (title : Option String) : ℚ :=
  let t := title.getD ""
  if t.data.isEmpty then 0
  else
    let p1 : Int := if t.data.length < 10 then 30
      else if t.data.length > 250 then 20 else 0
    let p2 : Int := if !(cIsUpper (t.data.headD ' ')) then 10 else 0
    let p3 : Int := if endsWithL ".".data t.data then 5 else 0
    ((max 0 (100 - p1 - p2 - p3) : Int) : ℚ)

/-- `_assess_creator_quality` (score component). -/
def assessCreatorQuality (creators : Option (List Creator)) : ℚ :=
  let cs := creators.getD []
  if cs.isEmpty then 0
  else
    let p0 : Int := if cs.length > 10 then 20 else 0
    let pcs : Int := (cs.map (fun c =>
      if c.name.data.isEmpty then (20 : Int)
      else if c.name.data.length < 3 then 10
      else if !(containsL [','] c.name.data) && !(containsL [' '] c.name.data) then 5
      else 0)).sum
    ((max 0 (100 - p0 - pcs) : Int) : ℚ)

/-- `_assess_description_quality` (score component). -/
def assessDescriptionQuality (description : Option String) : ℚ :=
  let d := description.getD ""
  if d.data.isEmpty then 0
  else
    let p1 : Int := if d.data.length < 20 then 40
      else if d.data.length > 5000 then 20 else 0
    let p2 : Int := if d.data.count '.' < 2 then 15 else 0
    ((max 0 (100 - p1 - p2) : Int) : ℚ)

/-- `_assess_keyword_quality` (score component). -/
def assessKeywordQuality (keywords : Option (List String)) : ℚ :=
  let ks := keywords.getD []
  if ks.isEmpty then 50
  else
    let p0 : Int := if ks.length < 3 then 30 else if ks.length > 20 then 20 else 0
    let pks : Int := (ks.map (fun k =>
      if k.data.length < 2 then (10 : Int)
      else if k.data.length > 50 then 5
      else 0)).sum
    ((max 0 (100 - p0 - pks) : Int) : ℚ)

/-- `_assess_date_quality` (score component); `isoParse` models
`datetime.fromisoformat` returning the year. -/
def assessDateQuality (isoParse : String → Option Nat) (currentYear : Nat)
    (date : Option String) : ℚ :=
  let d := date.getD ""
  if d.data.isEmpty then 0
  else
    match isoParse d with
    | none => 0
    | some y =>
      let p : Int := if y < 1900 then 30 else if y > currentYear + 1 then 30 else 0
      ((max 0 (100 - p) : Int) : ℚ)

/-- The six recognized licenses of the scorer and the compliance check. -/
def scorerLicenses : List String :=
  ["cc-zero", "cc-by-4.0", "cc-by-sa-4.0", "mit", "apache-2.0", "gpl-3.0"]

/-- `_assess_license_quality` (score component). -/
def assessLicenseQuality (license : Option String) : ℚ :=
  let l := license.getD ""
  if l.data.isEmpty then 0
  else if scorerLicenses.contains l then 100
  else 50

/-- The sum of the six facet scores. -/
def qualitySum (isoParse : String → Option Nat) (currentYear : Nat)
    (m : ZMeta) : ℚ :=
  assessTitleQuality m.title + assessCreatorQuality m.creators +
    assessDescriptionQuality m.description + assessKeywordQuality m.keywords +
    assessDateQuality isoParse currentYear m.publication_date +
    assessLicenseQuality m.license

/-- `overall_quality_score`: unweighted mean of the six facets, rounded. -/
def overallQualityScore (isoParse : String → Option Nat) (currentYear : Nat)
    (m : ZMeta) : ℚ :=
  roundQ 1 (qualitySum isoParse currentYear m / 6)

/-- `mapping_completeness`. -/
def mappingCompleteness (fgdcFields : Nat) (m : ZMeta) : ℚ :=
  if fgdcFields > 0 then
    roundQ 1 (((mappedFieldsCount m : ℚ) / (fgdcFields : ℚ)) * 100)
  else 0

/-- The truthy enrichment fields of `_calculate_data_enrichment`. -/
def enrichCount (m : ZMeta) : Nat :=
  ind (truthyS m.notes) + ind (truthyL m.related_identifiers) +
    ind (truthyL m.contributors) + ind (truthyL m.references)

/-- `_calculate_data_enrichment`. -/
def dataEnrichmentScore (m : ZMeta) : ℚ :=
  roundQ 1 (((enrichCount m : ℚ) / 4) * 100)

/-- The truthy required fields of `_calculate_format_compliance`. -/
def fmtCount (m : ZMeta) : Nat :=
  ind (truthyS m.title) + ind (truthyL m.creators) +
    ind (truthyS m.publication_date) + ind (truthyS m.description)

/-- `_calculate_format_compliance`. -/
def formatComplianceScore (m : ZMeta) : ℚ :=
  roundQ 1 (((fmtCount m : ℚ) / 4) * 100)

/-- `overall_effectiveness_score` (`_calculate_semantic_accuracy` is the
constant 85). -/
def overallEffectivenessScore (fgdcFields : Nat) (m : ZMeta) : ℚ :=
  roundQ 1 ((mappingCompleteness fgdcFields m + dataEnrichmentScore m +
    formatComplianceScore m + 85) / 4)

/-- The present required fields of `_calculate_compliance_metrics`. -/
def reqCount (m : ZMeta) : Nat :=
  ind m.title.isSome + ind m.creators.isSome +
    ind m.publication_date.isSome + ind m.description.isSome

/-- `zenodo_required_percentage`. -/
def requiredPercentage (m : ZMeta) : ℚ :=
  roundQ 1 (((reqCount m : ℚ) / 4) * 100)

/-- The present recommended fields of `_calculate_compliance_metrics`. -/
def recCount (m : ZMeta) : Nat :=
  ind m.keywords.isSome + ind m.license.isSome +
    ind m.access_right.isSome + ind m.communities.isSome +
    ind m.notes.isSome + ind m.related_identifiers.isSome

/-- `zenodo_recommended_percentage`. -/
def recommendedPercentage (m : ZMeta) : ℚ :=
  roundQ 1 (((recCount m : ℚ) / 6) * 100)

/-- `pices_community_present`. -/
def picesFlag (m : ZMeta) : Bool := (m.communities.getD []).contains "pices"

/-- `open_access_compliant`. -/
def openFlag (m : ZMeta) : Bool := m.access_right == some "open"

/-- `license_compliant`. -/
def licenseFlag (m : ZMeta) : Bool :=
  match m.license with
  | some l => scorerLicenses.contains l
  | none => false

/-- `overall_compliance_score`: mean of the two percentages (as fractions)
and the three policy booleans, times 100, rounded. -/
def overallComplianceScore (m : ZMeta) : ℚ :=
  roundQ 1 ((requiredPercentage m / 100 + recommendedPercentage m / 100 +
    (if picesFlag m then (1 : ℚ) else 0) + (if openFlag m then (1 : ℚ) else 0) +
    (if licenseFlag m then (1 : ℚ) else 0)) / 5 * 100)

/-- `_calculate_overall_score`: the fixed-weight combination of the five
category scores, rounded to one decimal. -/
def overallScore (isoParse : String → Option Nat) (currentYear : Nat)
    (fgdcChars fgdcFields : Nat) (m : ZMeta) : ℚ :=
  roundQ 1 ((25 / 100 : ℚ) * (contentRatio fgdcChars m * 100) +
    (20 / 100 : ℚ) * weightedCoverageScore m +
    (25 / 100 : ℚ) * overallQualityScore isoParse currentYear m +
    (20 / 100 : ℚ) * overallEffectivenessScore fgdcFields m +
    (10 / 100 : ℚ) * overallComplianceScore m)

/-! ## General lemmas -/

theorem sappend_data (a b : String) : (a ++ b).data = a.data ++ b.data := by
  cases a; cases b; rfl

theorem append_data_ne_nil_right (a b : String) (h : b.data ≠ []) :
    (a ++ b).data ≠ [] := by
  rw [sappend_data]
  intro hc
  exact h (List.append_eq_nil.mp hc).2

theorem append_data_ne_nil_left (a b : String) (h : a.data ≠ []) :
    (a ++ b).data ≠ [] := by
  rw [sappend_data]
  intro hc
  exact h (List.append_eq_nil.mp hc).1

theorem string_ne_empty_iff_data (s : String) : s ≠ "" ↔ s.data ≠ [] := by
  cases s with
  | mk l =>
    have hmm : (String.mk l = "") ↔ l = [] := by
      constructor
      · intro h
        exact congrArg String.data h
      · intro h
        rw [h]
    constructor
    · intro h hc
      exact h (hmm.mpr hc)
    · intro h hc
      exact h (hmm.mp hc)

/-! ## Claim theorems -/

/-- C3: the date normalizer collapses range tokens to the first date of the
range: `"1950-1980"` → `"1950-01-01"`, `"19970101-20021231"` → `"1997-01-01"`
and `"72-88"` → `"1972-01-01"`, where two-digit years are expanded with the
pivot 50 (under 50 → 2000s, witnessed by `"49-88"` → `"2049-01-01"`;
otherwise 1900s, witnessed by `"50-88"` → `"1950-01-01"`), for every
`dateutil` parser and current year. -/
theorem normalize_date_collapses_ranges :
    (∀ p y, normalizeDate p y "1950-1980" = some "1950-01-01") ∧
    (∀ p y, normalizeDate p y "19970101-20021231" = some "1997-01-01") ∧
    (∀ p y, normalizeDate p y "72-88" = some "1972-01-01") ∧
    (∀ p y, normalizeDate p y "49-88" = some "2049-01-01") ∧
    (∀ p y, normalizeDate p y "50-88" = some "1950-01-01") :=
  ⟨fun _ _ => rfl, fun _ _ => rfl, fun _ _ => rfl, fun _ _ => rfl, fun _ _ => rfl⟩

/-- C5: when the four bounds parse and west > east, the extractor first
wraps longitudes above 180° by subtracting 360°, and flags an antimeridian
crossing exactly when the inversion persists after wrapping; the crossing
box is preserved unsplit (latitudes and wrapped longitudes unchanged).
Concretely, west=190/east=170 normalizes to west=−170 without a crossing,
west=170/east=−170 is flagged as a crossing and kept as-is. -/
theorem bbox_wraps_before_crossing (b : BBoxQ) (h : b.west > b.east) :
    ((extractSpatialCoverage b).1 =
      { b with west := if b.west > 180 then b.west - 360 else b.west,
               east := if b.east > 180 then b.east - 360 else b.east }) ∧
    ((extractSpatialCoverage b).2 = true ↔
      (if b.west > 180 then b.west - 360 else b.west) >
        (if b.east > 180 then b.east - 360 else b.east)) ∧
    extractSpatialCoverage ⟨190, 170, 60, 40⟩ = (⟨-170, 170, 60, 40⟩, false) ∧
    extractSpatialCoverage ⟨170, -170, 60, 40⟩ = (⟨170, -170, 60, 40⟩, true) := by
  refine ⟨?_, ?_, by norm_num [extractSpatialCoverage], by norm_num [extractSpatialCoverage]⟩ <;>
    · unfold extractSpatialCoverage
      rw [if_pos h]
      dsimp only
      split_ifs <;> first | rfl | simp_all

/-- C5 witness: the theorem applied to the concrete crossing box
west=170, east=−170. -/
theorem bbox_wraps_before_crossing_witness :
    (extractSpatialCoverage ⟨170, -170, 60, 40⟩).2 = true := by
  have h : ((⟨170, -170, 60, 40⟩ : BBoxQ).west > (⟨170, -170, 60, 40⟩ : BBoxQ).east) := by
    norm_num
  rw [(bbox_wraps_before_crossing ⟨170, -170, 60, 40⟩ h).2.1]
  norm_num

/-! Preservation of `imprint_publisher` by the steps that follow the
publisher assignment in `_extract_additional_fields`. -/

theorem appendRelId_imprint (m : ZMeta) (r : RelId) :
    (appendRelId m r).imprint_publisher = m.imprint_publisher := rfl

theorem othercitStep_imprint (doc : FGDCDoc) (m : ZMeta) :
    (othercitStep doc m).imprint_publisher = m.imprint_publisher := by
  unfold othercitStep
  split <;> rfl

theorem lworkcitStep_imprint (doc : FGDCDoc) (m : ZMeta) :
    (lworkcitStep doc m).imprint_publisher = m.imprint_publisher := by
  unfold lworkcitStep
  split <;> rfl

theorem browsedStep_imprint (doc : FGDCDoc) (m : ZMeta) :
    (browsedStep doc m).imprint_publisher = m.imprint_publisher := by
  unfold browsedStep
  induction doc.browsed generalizing m with
  | nil => rfl
  | cons o t ih =>
    simp only [List.foldl_cons]
    rw [ih]
    cases textNE o <;> rfl

theorem extractSecurityInfo_imprint (doc : FGDCDoc) (m : ZMeta) :
    (extractSecurityInfo doc m).imprint_publisher = m.imprint_publisher := by
  unfold extractSecurityInfo
  dsimp only
  (repeat' split) <;> rfl

theorem eadetcitStep_imprint (doc : FGDCDoc) (m : ZMeta) :
    (eadetcitStep doc m).imprint_publisher = m.imprint_publisher := by
  unfold eadetcitStep
  split <;> rfl

theorem networkrStep_imprint (doc : FGDCDoc) (m : ZMeta) :
    (networkrStep doc m).imprint_publisher = m.imprint_publisher := by
  unfold networkrStep
  split <;> rfl

theorem extractFeesInfo_imprint (doc : FGDCDoc) (m : ZMeta) :
    (extractFeesInfo doc m).imprint_publisher = m.imprint_publisher := by
  unfold extractFeesInfo
  dsimp only
  (repeat' split) <;> rfl

theorem isEmpty_false_of_ne (l : List Char) (h : l ≠ []) : l.isEmpty = false := by
  cases l with
  | nil => exact absurd rfl h
  | cons a t => rfl

theorem textNE_of_ne_empty (s : String) (hs : s ≠ "") : textNE (some s) = some s := by
  simp only [textNE]
  rw [isEmpty_false_of_ne s.data ((string_ne_empty_iff_data s).mp hs)]
  rfl

/-- C6: after construction of a canonical record the publisher always
equals the canonical organization value, a differing truthy source
publisher is preserved under `imprint_publisher`, and the crosswalk itself
stores the source `publish` element under `imprint_publisher`. -/
theorem publisher_forced_canonical (m : ZMeta) :
    (canonicalPostInit m).publisher = some PICES_PUBLISHER ∧
    (∀ p, m.publisher = some p → p ≠ "" → p ≠ PICES_PUBLISHER →
      (canonicalPostInit m).imprint_publisher = some p) ∧
    (∀ doc m0 s, doc.publish = some s → s ≠ "" →
      (extractAdditionalFields doc m0).imprint_publisher = some (stripS s)) := by
  refine ⟨rfl, ?_, ?_⟩
  · intro p hp hne hnp
    unfold canonicalPostInit
    rw [hp]
    dsimp only
    rw [if_pos]
    rw [isEmpty_false_of_ne p.data ((string_ne_empty_iff_data p).mp hne),
      beq_eq_false_iff_ne.mpr hnp]
    rfl
  · intro doc m0 s hp hs
    unfold extractAdditionalFields
    rw [extractFeesInfo_imprint, networkrStep_imprint, eadetcitStep_imprint,
      extractSecurityInfo_imprint, browsedStep_imprint, lworkcitStep_imprint,
      othercitStep_imprint]
    unfold publishStep
    rw [hp, textNE_of_ne_empty s hs]

/-- C6 witness: a record carrying the publisher "Legacy Publisher" ends up
with the canonical publisher and the legacy value under
`imprint_publisher`. -/
theorem publisher_forced_canonical_witness :
    (canonicalPostInit { publisher := some "Legacy Publisher" }).imprint_publisher =
      some "Legacy Publisher" :=
  (publisher_forced_canonical _).2.1 "Legacy Publisher" rfl (by decide) (by decide)

/-! Characterization of `merge_related_identifiers` (C10). -/

/-- The incoming entries whose key is not yet present, first occurrence per
key only — the list the merge is expected to append. -/
def newIncoming (keys : List (Option String × Option String)) :
    List RIdItem → List RIdItem
  | [] => []
  | r :: rs =>
    if keys.contains (ridKey r) then newIncoming keys rs
    else r :: newIncoming (keys ++ [ridKey r]) rs

theorem mergeFold_eq (inc : List RIdItem) :
    ∀ acc keys, inc.foldl mergeStep (acc, keys) =
      (acc ++ newIncoming keys inc, keys ++ (newIncoming keys inc).map ridKey) := by
  induction inc with
  | nil => intro acc keys; simp [newIncoming]
  | cons r rs ih =>
    intro acc keys
    simp only [List.foldl_cons, newIncoming, mergeStep]
    by_cases h : keys.contains (ridKey r) = true
    · rw [if_pos h, if_pos h, ih]
    · rw [if_neg h, if_neg h, ih]
      simp [List.append_assoc]

theorem contains_append {α : Type} [BEq α] (l1 l2 : List α) (a : α) :
    (l1 ++ l2).contains a = (l1.contains a || l2.contains a) := by
  induction l1 with
  | nil => rfl
  | cons x t ih =>
    simp_all [List.contains, List.elem_cons]
    rw [Bool.or_assoc]

theorem newIncoming_nil_of_seen (inc : List RIdItem) :
    ∀ keys, (∀ r ∈ inc, keys.contains (ridKey r) = true) →
      newIncoming keys inc = [] := by
  induction inc with
  | nil => intro keys _; rfl
  | cons r rs ih =>
    intro keys h
    unfold newIncoming
    rw [if_pos (h r (List.mem_cons_self r rs))]
    exact ih keys (fun x hx => h x (List.mem_cons_of_mem r hx))

theorem keys_after_merge (inc : List RIdItem) :
    ∀ keys r, r ∈ inc →
      (keys ++ (newIncoming keys inc).map ridKey).contains (ridKey r) = true := by
  induction inc with
  | nil => intro _ r h; cases h
  | cons r0 rs ih =>
    intro keys r hr
    unfold newIncoming
    by_cases h0 : keys.contains (ridKey r0) = true
    · rw [if_pos h0]
      rcases List.mem_cons.mp hr with hEq | hMem
      · subst hEq
        rw [contains_append, h0, Bool.true_or]
      · exact ih keys r hMem
    · rw [if_neg h0]
      rcases List.mem_cons.mp hr with hEq | hMem
      · subst hEq
        rw [contains_append]
        simp
      · have := ih (keys ++ [ridKey r0]) r hMem
        rw [List.append_assoc] at this
        simpa using this

/-- C10: the merge appends exactly the incoming entries whose
(identifier, relation) key is not already present (first occurrence per
key), after the pre-existing entries in order; merging the same sequence a
second time leaves the list unchanged. -/
theorem merge_related_identifiers_spec (existing incoming : List RIdItem) :
    mergeRelatedIdentifiers existing incoming =
      existing ++ newIncoming (existing.map ridKey) incoming ∧
    mergeRelatedIdentifiers (mergeRelatedIdentifiers existing incoming) incoming =
      mergeRelatedIdentifiers existing incoming := by
  have h1 : mergeRelatedIdentifiers existing incoming =
      existing ++ newIncoming (existing.map ridKey) incoming := by
    unfold mergeRelatedIdentifiers
    rw [mergeFold_eq]
  refine ⟨h1, ?_⟩
  have hseen : ∀ r ∈ incoming,
      ((mergeRelatedIdentifiers existing incoming).map ridKey).contains (ridKey r) = true := by
    intro r hr
    rw [h1, List.map_append]
    exact keys_after_merge incoming (existing.map ridKey) r hr
  have h2 : mergeRelatedIdentifiers (mergeRelatedIdentifiers existing incoming) incoming =
      mergeRelatedIdentifiers existing incoming ++
        newIncoming ((mergeRelatedIdentifiers existing incoming).map ridKey) incoming := by
    unfold mergeRelatedIdentifiers
    rw [mergeFold_eq]
  rw [h2, newIncoming_nil_of_seen incoming _ hseen, List.append_nil]

/-- C2: an extracted (stripped) title longer than 250 characters is
returned as its first 247 characters plus `"..."` — a string of exactly
250 characters ending in the ellipsis — and a `title_truncated` warning
records the original length; a title of 250 characters or fewer is
returned unchanged with no diagnostic. -/
theorem title_truncated_at_250 (filePath raw : String) :
    ((stripS raw).data.length > 250 →
      extractTitle filePath (some raw) =
        (some (String.mk ((stripS raw).data.take 247) ++ "..."),
         [⟨filePath, "idinfo.citation.citeinfo.title", "title_truncated", "warning",
           some ("Title length: " ++ toString (stripS raw).data.length ++ " characters"),
           "Title under 250 characters",
           "Truncated from " ++ toString (stripS raw).data.length ++
             " to 250 characters: '" ++
             (String.mk ((stripS raw).data.take 247) ++ "...") ++ "'", ""⟩]) ∧
      (String.mk ((stripS raw).data.take 247) ++ "...").data.length = 250 ∧
      endsWithL "...".data (String.mk ((stripS raw).data.take 247) ++ "...").data = true) ∧
    ((stripS raw).data ≠ [] → (stripS raw).data.length ≤ 250 →
      extractTitle filePath (some raw) = (some (stripS raw), [])) := by
  constructor
  · intro h
    have hne : (stripS raw).data ≠ [] := by
      intro hc
      rw [hc] at h
      simp at h
    refine ⟨?_, ?_, ?_⟩
    · unfold extractTitle
      dsimp only
      rw [isEmpty_false_of_ne _ hne, if_neg (by simp), if_pos h]
    · rw [sappend_data]
      simp only [List.length_append, List.length_take, String.length]
      have : min 247 (stripS raw).data.length = 247 := by omega
      rw [this]
      rfl
    · unfold endsWithL
      rw [sappend_data, List.reverse_append]
      rfl
  · intro h1 h2
    unfold extractTitle
    dsimp only
    rw [isEmpty_false_of_ne _ h1, if_neg (by simp), if_neg (by omega)]

set_option maxRecDepth 20000 in
/-- C2 witness: a 260-character title truncates to 250 characters; an
11-character title is returned unchanged without diagnostics. -/
theorem title_truncated_at_250_witness :
    ((extractTitle "f.xml" (some (String.mk (List.replicate 260 'a')))).1.map
      (fun t => t.data.length)) = some 250 ∧
    extractTitle "f.xml" (some "Short title") = (some "Short title", []) := by
  have h1 := (title_truncated_at_250 "f.xml" (String.mk (List.replicate 260 'a'))).1
    (by decide)
  have h2 := (title_truncated_at_250 "f.xml" "Short title").2 (by decide) (by decide)
  constructor
  · rw [h1.1]
    simp only [Option.map_some']
    rw [h1.2.1]
  · rw [h2]
    decide

/-- `_detect_license` only produces keys of the pattern registry. -/
theorem detectLicense_mem_keys (use l : String) (h : detectLicense use = some l) :
    l ∈ licensePatterns.map Prod.fst := by
  unfold detectLicense at h
  dsimp only at h
  by_cases h1 : use.data.isEmpty = true
  · rw [if_pos h1] at h
    cases h
  · rw [if_neg h1] at h
    by_cases h2 : (["none", "n/a", "not applicable", "not specified"].any
        (fun t => stripS (lowerS use) == t)) = true
    · rw [if_pos h2] at h
      cases h
      decide
    · rw [if_neg h2] at h
      rcases hf : licensePatterns.find?
          (fun kp => kp.2.any (fun p => reSearch p (stripS (lowerS use)))) with _ | kp
      · rw [hf] at h
        simp at h
      · rw [hf] at h
        simp only [Option.some.injEq] at h
        subst h
        exact List.mem_map_of_mem Prod.fst (List.mem_of_find?_eq_some hf)

/-- C4: for every pair of access/use constraint texts: "none/open/public"
phrasing forces open access; otherwise "restricted/by request/registration"
phrasing forces restricted access with the (non-empty) constraint text as
`access_conditions`; otherwise access defaults to open.  When no license
pattern matches and the access right is open or embargoed, the default
`cc-zero` is substituted, and the produced license id is always a key of the
fixed pattern registry. -/
theorem access_license_classifier (acc use : String) :
    (isOpenPhrase acc = true →
      (extractAccessConstraints "cc-zero" acc use).1 = "open") ∧
    (isOpenPhrase acc = false → isRestrictedPhrase acc = true →
      (extractAccessConstraints "cc-zero" acc use).1 = "restricted" ∧
      (extractAccessConstraints "cc-zero" acc use).2.1 = some acc ∧ acc ≠ "") ∧
    (isOpenPhrase acc = false → isRestrictedPhrase acc = false →
      (extractAccessConstraints "cc-zero" acc use).1 = "open") ∧
    (detectLicense use = none →
      ((extractAccessConstraints "cc-zero" acc use).1 = "open" ∨
        (extractAccessConstraints "cc-zero" acc use).1 = "embargoed") →
      (extractAccessConstraints "cc-zero" acc use).2.2 = "cc-zero") ∧
    (extractAccessConstraints "cc-zero" acc use).2.2 ∈ licensePatterns.map Prod.fst := by
  refine ⟨?_, ?_, ?_, ?_, ?_⟩
  · intro h
    unfold extractAccessConstraints
    rw [if_pos h]
  · intro h1 h2
    unfold extractAccessConstraints
    rw [if_neg (by simp [h1]), if_pos h2]
    refine ⟨rfl, rfl, ?_⟩
    intro hacc
    rw [hacc] at h2
    exact absurd h2 (by decide)
  · intro h1 h2
    unfold extractAccessConstraints
    rw [if_neg (by simp [h1]), if_neg (by simp [h2])]
  · intro hdl _
    unfold extractAccessConstraints
    rw [hdl]
    dsimp only
    exact ite_self _
  · rcases hdl : detectLicense use with _ | l
    · have hz : (extractAccessConstraints "cc-zero" acc use).2.2 = "cc-zero" := by
        unfold extractAccessConstraints
        rw [hdl]
        dsimp only
        exact ite_self _
      rw [hz]
      decide
    · have hz : (extractAccessConstraints "cc-zero" acc use).2.2 = l := by
        unfold extractAccessConstraints
        rw [hdl]
      rw [hz]
      exact detectLicense_mem_keys use l hdl

/-- C4 witness: "None" yields open access; "Restricted, by request only"
yields restricted access with the text preserved as the condition. -/
theorem access_license_classifier_witness :
    (extractAccessConstraints "cc-zero" "None" "").1 = "open" ∧
    (extractAccessConstraints "cc-zero" "Restricted, by request only" "").1 = "restricted" :=
  ⟨(access_license_classifier "None" "").1 (by decide),
   ((access_license_classifier "Restricted, by request only" "").2.1
     (by decide) (by decide)).1⟩

/-! URL-shape soundness of the related-identifier extractor (C7). -/

theorem startsWithL_append_self (n rest : List Char) :
    startsWithL n (n ++ rest) = true := by
  induction n with
  | nil => rfl
  | cons a t ih => simp [startsWithL, ih]

theorem findUrlsAux_http (fuel : Nat) :
    ∀ cs u, u ∈ findUrlsAux fuel cs →
      (startsWithL "http://".data u.data ||
        startsWithL "https://".data u.data) = true := by
  induction fuel with
  | zero =>
    intro cs u hu
    simp [findUrlsAux] at hu
  | succ f ih =>
    intro cs u hu
    cases cs with
    | nil => simp [findUrlsAux] at hu
    | cons c cs2 =>
      unfold findUrlsAux at hu
      dsimp only at hu
      by_cases h1 : startsWithL "https://".data (c :: cs2) = true
      · rw [if_pos h1] at hu
        by_cases h2 : (((c :: cs2).drop 8).takeWhile urlChar).isEmpty = true
        · rw [if_pos h2] at hu
          exact ih cs2 u hu
        · rw [if_neg h2] at hu
          rcases List.mem_cons.mp hu with hEq | hMem
          · subst hEq
            rw [sappend_data]
            rw [startsWithL_append_self]
            simp
          · exact ih _ u hMem
      · rw [if_neg h1] at hu
        by_cases h3 : startsWithL "http://".data (c :: cs2) = true
        · rw [if_pos h3] at hu
          by_cases h2 : (((c :: cs2).drop 7).takeWhile urlChar).isEmpty = true
          · rw [if_pos h2] at hu
            exact ih cs2 u hu
          · rw [if_neg h2] at hu
            rcases List.mem_cons.mp hu with hEq | hMem
            · subst hEq
              rw [sappend_data]
              rw [startsWithL_append_self]
              simp
            · exact ih _ u hMem
        · rw [if_neg h3] at hu
          exact ih cs2 u hu

/-- The URL-shape invariant for a related-identifier entry. -/
def urlShaped (r : RelId) : Prop :=
  (r.relation = "isAlternateIdentifier" ∧ isValidUrl r.identifier = true) ∨
  (r.relation = "isRelatedTo" ∧
    (startsWithL "http://".data r.identifier.data ||
      startsWithL "https://".data r.identifier.data) = true)

theorem onlinkFold_sound (l : List (Option String)) :
    ∀ acc, (∀ r ∈ acc, urlShaped r) →
      ∀ r ∈ l.foldl onlinkStep acc, urlShaped r := by
  induction l with
  | nil => intro acc ha r hr; exact ha r hr
  | cons o t ih =>
    intro acc ha r hr
    simp only [List.foldl_cons] at hr
    refine ih _ ?_ r hr
    intro x hx
    unfold onlinkStep at hx
    cases ho : textNE o with
    | none =>
      rw [ho] at hx
      exact ha x hx
    | some s =>
      rw [ho] at hx
      dsimp only at hx
      by_cases hv : isValidUrl (stripS s) = true
      · rw [if_pos hv] at hx
        rcases List.mem_append.mp hx with hm | hm
        · exact ha x hm
        · rw [List.mem_singleton.mp hm]
          exact Or.inl ⟨rfl, hv⟩
      · rw [if_neg hv] at hx
        exact ha x hx

theorem crossrefFold_sound (l : List (Option String)) :
    ∀ acc, (∀ r ∈ acc, urlShaped r) →
      ∀ r ∈ l.foldl crossrefStep acc, urlShaped r := by
  induction l with
  | nil => intro acc ha r hr; exact ha r hr
  | cons o t ih =>
    intro acc ha r hr
    simp only [List.foldl_cons] at hr
    refine ih _ ?_ r hr
    intro x hx
    unfold crossrefStep at hx
    cases ho : textNE o with
    | none =>
      rw [ho] at hx
      exact ha x hx
    | some s =>
      rw [ho] at hx
      rcases List.mem_append.mp hx with hm | hm
      · exact ha x hm
      · rcases List.mem_map.mp hm with ⟨u, hu, hux⟩
        subst hux
        exact Or.inr ⟨rfl, findUrlsAux_http _ _ u hu⟩

/-- C7 (amended): every entry produced by `_extract_related_identifiers`
is URL-shaped — online-link entries pass `_is_valid_url`, cross-reference
entries match the `http(s)://` URL pattern.  (Entries appended later by
`_extract_additional_fields` — larger-work citations, browse graphics,
entity-attribute citations, online-distribution links — are not
URL-validated; see the counterexample.) -/
theorem related_identifiers_url_filtered (onlinks crossrefs : List (Option String)) :
    ∀ r ∈ extractRelatedIdentifiers onlinks crossrefs, urlShaped r := by
  intro r hr
  unfold extractRelatedIdentifiers at hr
  rcases List.mem_append.mp hr with hm | hm
  · exact onlinkFold_sound onlinks [] (by intro x hx; cases hx) r hm
  · exact crossrefFold_sound crossrefs [] (by intro x hx; cases hx) r hm

/-- C7 witness: a valid online link passes through the extractor and
satisfies the URL predicate. -/
theorem related_identifiers_url_filtered_witness :
    isValidUrl "https://pices.int/data" = true := by
  have h := related_identifiers_url_filtered [some "https://pices.int/data"] []
    ⟨"https://pices.int/data", "isAlternateIdentifier"⟩ (by decide)
  rcases h with h | h
  · exact h.2
  · exact absurd h.1 (by decide)

/-- C7 counterexample (to the claim as stated): on a record whose only
link-like element is the larger-work citation, `_build_zenodo_metadata`
emits a related identifier whose identifier is the citation text, which is
not a syntactically valid URL. -/
theorem related_identifiers_counterexample :
    (buildZenodoMetadata (fun _ => none) 2025
      { title := some "Zooplankton biomass survey",
        origins := [some "Smith, John"],
        pubdate := some "1999",
        abstract := some "An abstract of the survey.",
        lworkcit := some "PICES Scientific Report No. 12" } "sample.xml").map
      (fun m => (m.related_identifiers.getD []).map
        (fun r => (r.identifier, isValidUrl r.identifier))) =
      some [("PICES Scientific Report No. 12", false)] := by
  decide

/-! Non-emptiness of the required-field extractors and preservation of the
required fields through the optional-field pass (C1). -/

set_option maxHeartbeats 2000000 in
theorem normalizeDate_ne (p : String → Option (Nat × Nat × Nat)) (cy : Nat)
    (raw : String) : ∀ d, normalizeDate p cy raw = some d → d.data ≠ [] := by
  unfold normalizeDate
  dsimp only
  repeat' split
  all_goals intro d h
  all_goals cases h
  all_goals
    first
      | exact append_data_ne_nil_right _ _ (by decide)
      | exact append_data_ne_nil_left _ _ (append_data_ne_nil_right _ _ (by decide))

theorem tryDateElem_ne (p : String → Option (Nat × Nat × Nat)) (cy : Nat)
    (o : Option String) (d : String) (h : tryDateElem p cy o = some d) :
    d.data ≠ [] := by
  unfold tryDateElem at h
  rcases o with _ | s
  · cases h
  · dsimp only at h
    by_cases h1 : (stripS s).data.isEmpty = true
    · rw [if_pos h1] at h
      cases h
    · rw [if_neg h1] at h
      exact normalizeDate_ne p cy _ d h

theorem extractPublicationDate_ne (p : String → Option (Nat × Nat × Nat)) (cy : Nat)
    (pubdate metd : Option String) (d : String)
    (h : extractPublicationDate p cy pubdate metd = some d) : d.data ≠ [] := by
  unfold extractPublicationDate at h
  rcases h1 : tryDateElem p cy pubdate with _ | d1
  · rw [h1] at h
    exact tryDateElem_ne p cy metd d h
  · rw [h1] at h
    cases h
    exact tryDateElem_ne p cy pubdate d h1

theorem tryTextElem_ne (o : Option String) (t : String)
    (h : tryTextElem o = some t) : t.data ≠ [] := by
  unfold tryTextElem at h
  rcases o with _ | s
  · cases h
  · dsimp only at h
    by_cases h1 : (stripS s).data.isEmpty = true
    · rw [if_pos h1] at h
      cases h
    · rw [if_neg h1] at h
      cases h
      intro hc
      rw [hc] at h1
      exact h1 rfl

theorem extractDescription_ne (abstract purpose supplinf titleText : Option String)
    (s : String) (h : extractDescription abstract purpose supplinf titleText = some s) :
    s.data ≠ [] := by
  unfold extractDescription at h
  repeat' split at h
  all_goals cases h
  all_goals
    first
      | exact tryTextElem_ne _ _ (by assumption)
      | exact append_data_ne_nil_left _ _ (by decide)

theorem extractTitle_ne (fp : String) (o : Option String) (t : String)
    (h : (extractTitle fp o).1 = some t) : t.data ≠ [] := by
  unfold extractTitle at h
  rcases o with _ | raw
  · cases h
  · dsimp only at h
    by_cases h1 : (stripS raw).data.isEmpty = true
    · rw [if_pos h1] at h
      cases h
    · rw [if_neg h1] at h
      by_cases h2 : (stripS raw).data.length > 250
      · rw [if_pos h2] at h
        cases h
        exact append_data_ne_nil_right _ _ (by decide)
      · rw [if_neg h2] at h
        cases h
        intro hc
        rw [hc] at h1
        exact h1 rfl

/-- The four required fields of a Candidate Record. -/
def core (m : ZMeta) :
    Option String × Option (List Creator) × Option String × Option String :=
  (m.title, m.creators, m.publication_date, m.description)

theorem editionStep_core (doc : FGDCDoc) (m : ZMeta) :
    core (editionStep doc m) = core m := by
  unfold editionStep
  (repeat' split) <;> rfl

theorem sernameStep_core (doc : FGDCDoc) (m : ZMeta) :
    core (sernameStep doc m) = core m := by
  unfold sernameStep
  (repeat' split) <;> rfl

theorem issueStep_core (doc : FGDCDoc) (m : ZMeta) :
    core (issueStep doc m) = core m := by
  unfold issueStep
  (repeat' split) <;> rfl

theorem pubplaceStep_core (doc : FGDCDoc) (m : ZMeta) :
    core (pubplaceStep doc m) = core m := by
  unfold pubplaceStep
  (repeat' split) <;> rfl

theorem publishStep_core (doc : FGDCDoc) (m : ZMeta) :
    core (publishStep doc m) = core m := by
  unfold publishStep
  (repeat' split) <;> rfl

theorem othercitStep_core (doc : FGDCDoc) (m : ZMeta) :
    core (othercitStep doc m) = core m := by
  unfold othercitStep
  (repeat' split) <;> rfl

theorem lworkcitStep_core (doc : FGDCDoc) (m : ZMeta) :
    core (lworkcitStep doc m) = core m := by
  unfold lworkcitStep
  (repeat' split) <;> rfl

theorem browsedStep_core (doc : FGDCDoc) (m : ZMeta) :
    core (browsedStep doc m) = core m := by
  unfold browsedStep
  induction doc.browsed generalizing m with
  | nil => rfl
  | cons o t ih =>
    simp only [List.foldl_cons]
    rw [ih]
    cases textNE o <;> rfl

theorem extractSecurityInfo_core (doc : FGDCDoc) (m : ZMeta) :
    core (extractSecurityInfo doc m) = core m := by
  unfold extractSecurityInfo
  dsimp only
  (repeat' split) <;> rfl

theorem eadetcitStep_core (doc : FGDCDoc) (m : ZMeta) :
    core (eadetcitStep doc m) = core m := by
  unfold eadetcitStep
  (repeat' split) <;> rfl

theorem networkrStep_core (doc : FGDCDoc) (m : ZMeta) :
    core (networkrStep doc m) = core m := by
  unfold networkrStep
  (repeat' split) <;> rfl

theorem extractFeesInfo_core (doc : FGDCDoc) (m : ZMeta) :
    core (extractFeesInfo doc m) = core m := by
  unfold extractFeesInfo
  dsimp only
  (repeat' split) <;> rfl

theorem extractAdditionalFields_core (doc : FGDCDoc) (m : ZMeta) :
    core (extractAdditionalFields doc m) = core m := by
  unfold extractAdditionalFields
  rw [extractFeesInfo_core, networkrStep_core, eadetcitStep_core,
    extractSecurityInfo_core, browsedStep_core, lworkcitStep_core,
    othercitStep_core, publishStep_core, pubplaceStep_core, issueStep_core,
    sernameStep_core, editionStep_core]

theorem addOptionalFields_core (doc : FGDCDoc) (m : ZMeta) :
    core (addOptionalFields doc m) = core m := by
  unfold addOptionalFields
  rw [extractAdditionalFields_core]
  rfl

/-- C1: `_build_zenodo_metadata` is all-or-nothing.  It returns `none`
exactly when one of the four required extractions fails, and whenever it
returns a record, the record's title, creators, publication date and
description are present and non-empty. -/
theorem build_all_or_nothing (parse : String → Option (Nat × Nat × Nat))
    (cy : Nat) (doc : FGDCDoc) (fp : String) :
    (buildZenodoMetadata parse cy doc fp = none ↔
      (extractTitle fp doc.title).1 = none ∨
      extractCreators doc.origins = [] ∨
      extractPublicationDate parse cy doc.pubdate doc.metd = none ∨
      extractDescription doc.abstract doc.purpose doc.supplinf doc.title = none) ∧
    (∀ m, buildZenodoMetadata parse cy doc fp = some m →
      (∃ t, m.title = some t ∧ t.data ≠ []) ∧
      (∃ cs, m.creators = some cs ∧ cs ≠ []) ∧
      (∃ d, m.publication_date = some d ∧ d.data ≠ []) ∧
      (∃ s, m.description = some s ∧ s.data ≠ [])) := by
  constructor
  · unfold buildZenodoMetadata
    rcases ht : (extractTitle fp doc.title).1 with _ | t
    · simp
    · dsimp only
      by_cases hc : (extractCreators doc.origins).isEmpty = true
      · rw [if_pos hc]
        simp [List.isEmpty_iff.mp hc, ht]
      · rw [if_neg hc]
        have hc2 : ¬ extractCreators doc.origins = [] := by
          intro hcc
          rw [hcc] at hc
          exact hc rfl
        rcases hd : extractPublicationDate parse cy doc.pubdate doc.metd with _ | d
        · simp [hd, hc2, ht]
        · rcases hs : extractDescription doc.abstract doc.purpose doc.supplinf doc.title
            with _ | s
          · simp [hs, hd, hc2, ht]
          · simp [hs, hd, hc2, ht]
  · intro m hm
    unfold buildZenodoMetadata at hm
    rcases ht : (extractTitle fp doc.title).1 with _ | t
    · rw [ht] at hm
      cases hm
    · rw [ht] at hm
      dsimp only at hm
      by_cases hc : (extractCreators doc.origins).isEmpty = true
      · rw [if_pos hc] at hm
        cases hm
      · rw [if_neg hc] at hm
        rcases hd : extractPublicationDate parse cy doc.pubdate doc.metd with _ | d
        · rw [hd] at hm
          cases hm
        · rw [hd] at hm
          rcases hs : extractDescription doc.abstract doc.purpose doc.supplinf doc.title
            with _ | s
          · rw [hs] at hm
            cases hm
          · rw [hs] at hm
            cases hm
            have hcore := addOptionalFields_core doc
              { title := some t
                upload_type := some "dataset"
                publication_date := some d
                creators := some (extractCreators doc.origins)
                description := some s
                access_right := some "open"
                license := some "cc-zero"
                keywords := some []
                notes := some ""
                related_identifiers := some []
                contributors := some []
                references := some []
                communities := some ["pices"] }
            have h1 := congrArg (fun x => x.1) hcore
            have h2 := congrArg (fun x => x.2.1) hcore
            have h3 := congrArg (fun x => x.2.2.1) hcore
            have h4 := congrArg (fun x => x.2.2.2) hcore
            simp only [core] at h1 h2 h3 h4
            refine ⟨⟨t, h1, extractTitle_ne fp doc.title t ht⟩,
              ⟨extractCreators doc.origins, h2, ?_⟩,
              ⟨d, h3, extractPublicationDate_ne parse cy doc.pubdate doc.metd d hd⟩,
              ⟨s, h4, extractDescription_ne doc.abstract doc.purpose doc.supplinf
                doc.title s hs⟩⟩
            intro hcc
            rw [hcc] at hc
            exact hc rfl

/-- C1 witness: a record with title, origin, pubdate and abstract builds
successfully, and the theorem yields the populated non-empty required
fields. -/
theorem build_all_or_nothing_witness :
    ∃ m, buildZenodoMetadata (fun _ => none) 2025
      { title := some "Zooplankton biomass survey",
        origins := [some "Smith, John"],
        pubdate := some "1999",
        abstract := some "An abstract of the survey." } "sample.xml" = some m ∧
      (∃ t, m.title = some t ∧ t.data ≠ []) ∧
      (∃ cs, m.creators = some cs ∧ cs ≠ []) := by
  cases hbe : buildZenodoMetadata (fun _ => none) 2025
      { title := some "Zooplankton biomass survey",
        origins := [some "Smith, John"],
        pubdate := some "1999",
        abstract := some "An abstract of the survey." } "sample.xml" with
  | none => exact absurd hbe (by decide)
  | some m =>
    have h := (build_all_or_nothing (fun _ => none) 2025
      { title := some "Zooplankton biomass survey",
        origins := [some "Smith, John"],
        pubdate := some "1999",
        abstract := some "An abstract of the survey." } "sample.xml").2 m hbe
    exact ⟨m, rfl, h.1, h.2.1⟩

/-- C9 counterexample (to the claim as stated): the validation result
embeds `datetime.now().isoformat()`, so validating the same Candidate
Record at two different instants yields results that are not
byte-identical — the timestamp fields differ. -/
theorem validator_results_differ_by_timestamp :
    validateMetadata (fun _ => true) "rec.json" "2024-01-01T00:00:00" {} ≠
      validateMetadata (fun _ => true) "rec.json" "2024-01-01T00:00:01" {} := by
  intro hc
  have h : ("2024-01-01T00:00:00" : String) = "2024-01-01T00:00:01" :=
    congrArg ValidationResult.timestamp hc
  exact absurd h (by decide)

/-- C9 (amended): the validator is deterministic apart from the timestamp
field: for the same Candidate Record (and the same external date parser),
the validity flag, ordered issues and warnings, coverage and character
snapshots and the message are identical across calls, and two results are
fully identical exactly when their timestamps coincide. -/
theorem validator_deterministic_modulo_timestamp (du : String → Bool)
    (fp : String) (m : ZMeta) (t1 t2 : String) :
    (validateMetadata du fp t1 m).is_valid = (validateMetadata du fp t2 m).is_valid ∧
    (validateMetadata du fp t1 m).issues = (validateMetadata du fp t2 m).issues ∧
    (validateMetadata du fp t1 m).warnings = (validateMetadata du fp t2 m).warnings ∧
    (validateMetadata du fp t1 m).field_coverage =
      (validateMetadata du fp t2 m).field_coverage ∧
    (validateMetadata du fp t1 m).character_analysis =
      (validateMetadata du fp t2 m).character_analysis ∧
    (validateMetadata du fp t1 m).message = (validateMetadata du fp t2 m).message ∧
    (t1 = t2 → validateMetadata du fp t1 m = validateMetadata du fp t2 m) := by
  refine ⟨rfl, rfl, rfl, rfl, rfl, rfl, ?_⟩
  intro h
  rw [h]

/-- C9 witness: the amended theorem applied at equal timestamps gives full
equality of the two validation runs. -/
theorem validator_deterministic_modulo_timestamp_witness :
    validateMetadata (fun _ => true) "rec.json" "2024-01-01T00:00:00" {} =
      validateMetadata (fun _ => true) "rec.json" "2024-01-01T00:00:00" {} :=
  (validator_deterministic_modulo_timestamp (fun _ => true) "rec.json" {}
    "2024-01-01T00:00:00" "2024-01-01T00:00:00").2.2.2.2.2.2 rfl

/-! Monotonicity of the overall quality score (C8). -/

theorem rhe_lb (r : ℚ) : ⌊r⌋ ≤ rhe r := by
  unfold rhe
  dsimp only
  split_ifs <;> omega

theorem rhe_ub (r : ℚ) : rhe r ≤ ⌊r⌋ + 1 := by
  unfold rhe
  dsimp only
  split_ifs <;> omega

theorem rhe_mono {x y : ℚ} (h : x ≤ y) : rhe x ≤ rhe y := by
  rcases lt_or_eq_of_le (Int.floor_le_floor h) with hf | hf
  · calc rhe x ≤ ⌊x⌋ + 1 := rhe_ub x
      _ ≤ ⌊y⌋ := by omega
      _ ≤ rhe y := rhe_lb y
  · unfold rhe
    rw [← hf]
    dsimp only
    have hfr : x - ⌊x⌋ ≤ y - ⌊x⌋ := by linarith
    split_ifs <;> first | omega | linarith

theorem roundQ_mono (d : Nat) {x y : ℚ} (h : x ≤ y) : roundQ d x ≤ roundQ d y := by
  unfold roundQ
  have hp : (0 : ℚ) < 10 ^ d := by positivity
  have h2 : ((rhe (x * 10 ^ d) : ℤ) : ℚ) ≤ ((rhe (y * 10 ^ d) : ℤ) : ℚ) := by
    exact_mod_cast rhe_mono (mul_le_mul_of_nonneg_right h (le_of_lt hp))
  rw [div_eq_mul_inv, div_eq_mul_inv]
  exact mul_le_mul_of_nonneg_right h2 (by positivity)

theorem div_mono_const (a b c : ℚ) (ha : a ≤ b) (hc : 0 ≤ c) : a / c ≤ b / c := by
  rw [div_eq_mul_inv, div_eq_mul_inv]
  exact mul_le_mul_of_nonneg_right ha (by positivity)

theorem div_mul_mono (a b c k : ℚ) (ha : a ≤ b) (hc : 0 ≤ c) (hk : 0 ≤ k) :
    a / c * k ≤ b / c * k := by
  rw [div_eq_mul_inv, div_eq_mul_inv]
  have hi : (0 : ℚ) ≤ c⁻¹ := by positivity
  exact mul_le_mul_of_nonneg_right (mul_le_mul_of_nonneg_right ha hi) hk

theorem intMax_cast_nonneg (z : Int) : (0 : ℚ) ≤ ((max 0 z : Int) : ℚ) := by
  exact_mod_cast le_max_left 0 z

theorem assessTitleQuality_nonneg (o : Option String) : 0 ≤ assessTitleQuality o := by
  unfold assessTitleQuality
  dsimp only
  split_ifs <;> first | norm_num | exact intMax_cast_nonneg _

theorem assessCreatorQuality_nonneg (o : Option (List Creator)) :
    0 ≤ assessCreatorQuality o := by
  unfold assessCreatorQuality
  dsimp only
  split_ifs <;> first | norm_num | exact intMax_cast_nonneg _

theorem assessDescriptionQuality_nonneg (o : Option String) :
    0 ≤ assessDescriptionQuality o := by
  unfold assessDescriptionQuality
  dsimp only
  split_ifs <;> first | norm_num | exact intMax_cast_nonneg _

theorem assessDateQuality_nonneg (isoParse : String → Option Nat) (cy : Nat)
    (o : Option String) : 0 ≤ assessDateQuality isoParse cy o := by
  unfold assessDateQuality
  dsimp only
  (repeat' split) <;> first | norm_num | exact intMax_cast_nonneg _

theorem isEmptyL_false_of_ne {α : Type} (l : List α) (h : l ≠ []) :
    l.isEmpty = false := by
  cases l with
  | nil => exact absurd rfl h
  | cons a t => rfl

/-- The aggregate monotonicity of `_calculate_overall_score`: the overall
score is non-decreasing in each of the underlying counters and facet sums
when the three compliance flags are unchanged. -/
theorem overallScore_mono (isoParse : String → Option Nat)
    (cy fgdcChars fgdcFields : Nat) (m m2 : ZMeta)
    (hz : zenodoMeaningfulChars m ≤ zenodoMeaningfulChars m2)
    (hw : presentWeight m ≤ presentWeight m2)
    (hq : qualitySum isoParse cy m ≤ qualitySum isoParse cy m2)
    (hmap : mappedFieldsCount m ≤ mappedFieldsCount m2)
    (hen : enrichCount m ≤ enrichCount m2)
    (hfm : fmtCount m ≤ fmtCount m2)
    (hrq : reqCount m ≤ reqCount m2)
    (hrc : recCount m ≤ recCount m2)
    (hpf : picesFlag m = picesFlag m2)
    (hof : openFlag m = openFlag m2)
    (hlf : licenseFlag m = licenseFlag m2) :
    overallScore isoParse cy fgdcChars fgdcFields m ≤
      overallScore isoParse cy fgdcChars fgdcFields m2 := by
  have hcr : contentRatio fgdcChars m ≤ contentRatio fgdcChars m2 := by
    unfold contentRatio
    split_ifs with hc
    · exact roundQ_mono 3 (div_mono_const _ _ _ (by exact_mod_cast hz) (by positivity))
    · exact le_refl 0
  have hwc : weightedCoverageScore m ≤ weightedCoverageScore m2 :=
    roundQ_mono 1 (div_mul_mono _ _ _ _ (by exact_mod_cast hw) (by positivity) (by norm_num))
  have hqs : overallQualityScore isoParse cy m ≤ overallQualityScore isoParse cy m2 :=
    roundQ_mono 1 (div_mono_const _ _ _ hq (by norm_num))
  have hmc : mappingCompleteness fgdcFields m ≤ mappingCompleteness fgdcFields m2 := by
    unfold mappingCompleteness
    split_ifs with hc
    · exact roundQ_mono 1
        (div_mul_mono _ _ _ _ (by exact_mod_cast hmap) (by positivity) (by norm_num))
    · exact le_refl 0
  have hde : dataEnrichmentScore m ≤ dataEnrichmentScore m2 :=
    roundQ_mono 1 (div_mul_mono _ _ _ _ (by exact_mod_cast hen) (by norm_num) (by norm_num))
  have hfc : formatComplianceScore m ≤ formatComplianceScore m2 :=
    roundQ_mono 1 (div_mul_mono _ _ _ _ (by exact_mod_cast hfm) (by norm_num) (by norm_num))
  have hef : overallEffectivenessScore fgdcFields m ≤
      overallEffectivenessScore fgdcFields m2 := by
    unfold overallEffectivenessScore
    exact roundQ_mono 1 (div_mono_const _ _ _ (by linarith) (by norm_num))
  have hrp : requiredPercentage m ≤ requiredPercentage m2 :=
    roundQ_mono 1 (div_mul_mono _ _ _ _ (by exact_mod_cast hrq) (by norm_num) (by norm_num))
  have hrcp : recommendedPercentage m ≤ recommendedPercentage m2 :=
    roundQ_mono 1 (div_mul_mono _ _ _ _ (by exact_mod_cast hrc) (by norm_num) (by norm_num))
  have hcs : overallComplianceScore m ≤ overallComplianceScore m2 := by
    unfold overallComplianceScore
    rw [hpf, hof, hlf]
    refine roundQ_mono 1 (div_mul_mono _ _ _ _ ?_ (by norm_num) (by norm_num))
    have h1 := div_mono_const _ _ 100 hrp (by norm_num)
    have h2 := div_mono_const _ _ 100 hrcp (by norm_num)
    linarith
  unfold overallScore
  apply roundQ_mono
  have hcr100 : contentRatio fgdcChars m * 100 ≤ contentRatio fgdcChars m2 * 100 := by
    linarith
  linarith

theorem assessTitleQuality_none : assessTitleQuality none = 0 := rfl

theorem assessCreatorQuality_none : assessCreatorQuality none = 0 := rfl

theorem assessDescriptionQuality_none : assessDescriptionQuality none = 0 := rfl

theorem assessDateQuality_none (isoParse : String → Option Nat) (cy : Nat) :
    assessDateQuality isoParse cy none = 0 := rfl

/-- C8: adding a previously-missing critical field (title, creators,
publication date or description) with a non-empty value to an otherwise
identical Candidate Record, over the same source content, never decreases
the overall quality score. -/
theorem scorer_monotone_in_critical_fields (isoParse : String → Option Nat)
    (cy fgdcChars fgdcFields : Nat) (m : ZMeta) :
    (∀ t : String, m.title = none → t ≠ "" →
      overallScore isoParse cy fgdcChars fgdcFields m ≤
        overallScore isoParse cy fgdcChars fgdcFields { m with title := some t }) ∧
    (∀ cs : List Creator, m.creators = none → cs ≠ [] →
      overallScore isoParse cy fgdcChars fgdcFields m ≤
        overallScore isoParse cy fgdcChars fgdcFields { m with creators := some cs }) ∧
    (∀ d : String, m.publication_date = none → d ≠ "" →
      overallScore isoParse cy fgdcChars fgdcFields m ≤
        overallScore isoParse cy fgdcChars fgdcFields
          { m with publication_date := some d }) ∧
    (∀ s : String, m.description = none → s ≠ "" →
      overallScore isoParse cy fgdcChars fgdcFields m ≤
        overallScore isoParse cy fgdcChars fgdcFields
          { m with description := some s }) := by
  refine ⟨?_, ?_, ?_, ?_⟩
  · intro t h0 hne
    have hE : t.data.isEmpty = false :=
      isEmpty_false_of_ne _ ((string_ne_empty_iff_data t).mp hne)
    apply overallScore_mono
    · simp [zenodoMeaningfulChars, strChars, listVChars, h0] <;> omega
    · simp [presentWeight, h0, Option.isSome] <;> omega
    · simp only [qualitySum, h0, assessTitleQuality_none]
      have := assessTitleQuality_nonneg (some t)
      linarith
    · simp [mappedFieldsCount, h0, Option.isSome, ind] <;> omega
    · exact le_refl _
    · simp [fmtCount, truthyS, truthyL, h0, hE, ind] <;> omega
    · simp [reqCount, h0, Option.isSome, ind] <;> omega
    · exact le_refl _
    · rfl
    · rfl
    · rfl
  · intro cs h0 hne
    have hE : cs.isEmpty = false := isEmptyL_false_of_ne _ hne
    apply overallScore_mono
    · simp [zenodoMeaningfulChars, strChars, listVChars, h0] <;> omega
    · simp [presentWeight, h0, Option.isSome] <;> omega
    · simp only [qualitySum, h0, assessCreatorQuality_none]
      have := assessCreatorQuality_nonneg (some cs)
      linarith
    · simp [mappedFieldsCount, h0, Option.isSome, ind] <;> omega
    · exact le_refl _
    · simp [fmtCount, truthyS, truthyL, h0, hE, ind] <;> omega
    · simp [reqCount, h0, Option.isSome, ind] <;> omega
    · exact le_refl _
    · rfl
    · rfl
    · rfl
  · intro d h0 hne
    have hE : d.data.isEmpty = false :=
      isEmpty_false_of_ne _ ((string_ne_empty_iff_data d).mp hne)
    apply overallScore_mono
    · simp [zenodoMeaningfulChars, strChars, listVChars, h0] <;> omega
    · simp [presentWeight, h0, Option.isSome] <;> omega
    · simp only [qualitySum, h0, assessDateQuality_none]
      have := assessDateQuality_nonneg isoParse cy (some d)
      linarith
    · simp [mappedFieldsCount, h0, Option.isSome, ind] <;> omega
    · exact le_refl _
    · simp [fmtCount, truthyS, truthyL, h0, hE, ind] <;> omega
    · simp [reqCount, h0, Option.isSome, ind] <;> omega
    · exact le_refl _
    · rfl
    · rfl
    · rfl
  · intro s h0 hne
    have hE : s.data.isEmpty = false :=
      isEmpty_false_of_ne _ ((string_ne_empty_iff_data s).mp hne)
    apply overallScore_mono
    · simp [zenodoMeaningfulChars, strChars, listVChars, h0] <;> omega
    · simp [presentWeight, h0, Option.isSome] <;> omega
    · simp only [qualitySum, h0, assessDescriptionQuality_none]
      have := assessDescriptionQuality_nonneg (some s)
      linarith
    · simp [mappedFieldsCount, h0, Option.isSome, ind] <;> omega
    · exact le_refl _
    · simp [fmtCount, truthyS, truthyL, h0, hE, ind] <;> omega
    · simp [reqCount, h0, Option.isSome, ind] <;> omega
    · exact le_refl _
    · rfl
    · rfl
    · rfl

/-- C8 witness: adding a title to the empty record does not decrease the
overall score. -/
theorem scorer_monotone_in_critical_fields_witness :
    overallScore (fun _ => none) 2025 100 10 {} ≤
      overallScore (fun _ => none) 2025 100 10 { title := some "T" } :=
  (scorer_monotone_in_critical_fields (fun _ => none) 2025 100 10 {}).1 "T" rfl
    (by decide)

end PICES
